import Mathlib

/-!
Shallow embedding of the `loan-planner` repository (Python 2):
`loan_config.py`, `heuristics.py`, `payment_device.py`, `loan_planner.py`.

Python floats are modelled as exact rationals (`ℚ`), fallible Python
operations (division by zero, out-of-range indexing, missing attributes,
invalid dates) as `Except PyErr`.  Loans are identified by their name,
which the specification requires to be unique within a run.
-/

/-- Exception classes raised by the Python code paths modelled here. -/
inductive PyErr where
  | zeroDivisionError
  | indexError
  | attributeError
  | valueError
deriving DecidableEq, Repr

/-- Python division: raises `ZeroDivisionError` when the divisor is zero. -/
def pydiv (a b : ℚ) : Except PyErr ℚ :=
  if b = 0 then .error .zeroDivisionError else .ok (a / b)

/-- Python 2 `int()` on a float: truncation toward zero. -/
def pyInt (q : ℚ) : ℤ :=
  if 0 ≤ q then ⌊q⌋ else -⌊-q⌋

/-- Python 2 `round()`: round half away from zero. -/
def pyRound (q : ℚ) : ℤ :=
  if 0 ≤ q then ⌊q + 1/2⌋ else -⌊-q + 1/2⌋

/-- `sys.maxint` on a 64-bit build of Python 2. -/
def sysMaxint : ℚ := 2 ^ 63 - 1

/-! ## Calendar (the parts of `datetime` / `dateutil.relativedelta` the code uses) -/

/-- A Gregorian calendar date, as used by `datetime.datetime` (time-of-day ignored:
the simulation steps in whole days). -/
structure Date where
  year : Nat
  month : Nat
  day : Nat
deriving DecidableEq, Repr

/-- Gregorian leap-year rule. -/
def isLeapYear (y : Nat) : Bool :=
  y % 4 == 0 && (y % 100 != 0 || y % 400 == 0)

/-- Number of days in a month of a given year. -/
def daysInMonth (y m : Nat) : Nat :=
  if m = 2 then (if isLeapYear y then 29 else 28)
  else if m = 4 ∨ m = 6 ∨ m = 9 ∨ m = 11 then 30
  else 31

/-- Number of leap years in `1, …, n`. -/
def leapYearsUpTo (n : Nat) : Nat :=
  (List.range n).countP (fun k => isLeapYear (k + 1))

/-- Days in year `y` strictly before month `m`. -/
def daysBeforeMonth (y m : Nat) : Nat :=
  ((List.range (m - 1)).map (fun k => daysInMonth y (k + 1))).sum

/-- Proleptic-Gregorian day number (Python's `date.toordinal`:
0001-01-01 is day 1). -/
def Date.toOrdinal (d : Date) : Nat :=
  365 * (d.year - 1) + leapYearsUpTo (d.year - 1) + daysBeforeMonth d.year d.month + d.day

/-- A well-formed calendar date (month and day in range).  Years are kept `≥ 2`
so that stepping back one month never leaves the proleptic calendar. -/
def Date.Valid (d : Date) : Prop :=
  1 ≤ d.month ∧ d.month ≤ 12 ∧ 1 ≤ d.day ∧ d.day ≤ daysInMonth d.year d.month ∧ 2 ≤ d.year

instance (d : Date) : Decidable d.Valid := by
  unfold Date.Valid; infer_instance

/-- Successor date: `date + relativedelta(days=1)` on a valid date. -/
def Date.addOneDay (d : Date) : Date :=
  if d.day < daysInMonth d.year d.month then ⟨d.year, d.month, d.day + 1⟩
  else if d.month < 12 then ⟨d.year, d.month + 1, 1⟩
  else ⟨d.year + 1, 1, 1⟩

/-- `date - relativedelta(months=1)`: step back one month, clamping the day
to the length of the target month (dateutil semantics). -/
def Date.subOneMonth (d : Date) : Date :=
  if d.month = 1 then ⟨d.year - 1, 12, min d.day (daysInMonth (d.year - 1) 12)⟩
  else ⟨d.year, d.month - 1, min d.day (daysInMonth d.year (d.month - 1))⟩

/-- `date + relativedelta(months=n)` with dateutil's day clamping. -/
def Date.addMonthsClamped (d : Date) (n : Nat) : Date :=
  let t := d.year * 12 + (d.month - 1) + n
  let y := t / 12
  let m := t % 12 + 1
  ⟨y, m, min d.day (daysInMonth y m)⟩

/-- The `(paymentDate - lastPaymentDate).days` computation of
`PaymentDevice._make_payments_on_date`, where `lastPaymentDate` is exactly one
calendar month before `paymentDate`. -/
def daysSinceLastPayment (d : Date) : ℤ :=
  (d.toOrdinal : ℤ) - (d.subOneMonth.toOrdinal : ℤ)

/-- The `years`/`months`/`days` decomposition produced by
`relativedelta.relativedelta(dt1, dt2)` for `dt1 ≥ dt2`. -/
structure RelDelta where
  years : Nat
  months : Nat
  days : ℤ
deriving DecidableEq, Repr

/-- `relativedelta.relativedelta(dt1, dt2)` for `dt1 ≥ dt2`: the month count is
the raw month difference, decremented once if adding it to `dt2` overshoots
`dt1`; the day remainder is the ordinal difference to the month-shifted date. -/
def relativedelta (dt1 dt2 : Date) : RelDelta :=
  let t1 := dt1.year * 12 + (dt1.month - 1)
  let t2 := dt2.year * 12 + (dt2.month - 1)
  let m0 := t1 - t2
  let m := if dt1.toOrdinal < (dt2.addMonthsClamped m0).toOrdinal then m0 - 1 else m0
  ⟨m / 12, m % 12, (dt1.toOrdinal : ℤ) - ((dt2.addMonthsClamped m).toOrdinal : ℤ)⟩

namespace LoanConfig

/-- Average number of days per month according to the Gregorian calendar
(`LoanConfig.DAYS_PER_MONTH` in `loan_config.py`). -/
def DAYS_PER_MONTH : ℚ := 30436875 / 1000000

end LoanConfig

/-- `payment_device.to_months`: convert a `relativedelta` to raw months,
rounded to the nearest whole month. -/
def to_months (timeDiff : RelDelta) : ℤ :=
  pyRound ((timeDiff.years * 12 + timeDiff.months : ℤ) + (timeDiff.days : ℚ) / LoanConfig.DAYS_PER_MONTH)

/-- `dateOfBirth.replace(year=y)`: `datetime.replace` raises `ValueError` when
the day of month does not exist in the target year (Feb 29 in non-leap years). -/
def Date.replaceYear (d : Date) (y : Nat) : Except PyErr Date :=
  if d.day ≤ daysInMonth y d.month then .ok ⟨y, d.month, d.day⟩ else .error .valueError

/-- `payment_device.get_age_on_date`: the age a person born on `dateOfBirth`
would be on `date`.  Raises `ValueError` (from `datetime.replace`) when the
birthday does not exist in the evaluation year. -/
def get_age_on_date (dateOfBirth date : Date) : Except PyErr ℤ :=
  match dateOfBirth.replaceYear date.year with
  | .error e => .error e
  | .ok birthday =>
    if birthday.month > date.month then
      .ok ((date.year : ℤ) - dateOfBirth.year - 1)
    else if birthday.month = date.month then
      if birthday.day > date.day then
        .ok ((date.year : ℤ) - dateOfBirth.year - 1)
      else
        .ok ((date.year : ℤ) - dateOfBirth.year)
    else
      .ok ((date.year : ℤ) - dateOfBirth.year)

/-! ## `loan_config.Loan` -/

/-- Data of a single loan (`loan_config.Loan`).  `interestRate` is stored
pre-divided by 100, as the constructor does. -/
structure Loan where
  name : String
  balance : ℚ
  interestRate : ℚ
  monthlyPayment : ℚ
  paymentDay : Nat
  monthlyIncrease : ℚ
  upfrontPayment : ℚ
deriving DecidableEq, Repr

namespace Loan

/-- `Loan.__init__`: the interest rate is given as a percentage and divided
by 100; the bookkeeping fields start at zero. -/
def init (name : String) (balance interestRate monthlyPayment : ℚ) (paymentDay : Nat) : Loan :=
  ⟨name, balance, interestRate / 100, monthlyPayment, paymentDay, 0, 0⟩

/-- `Loan.get_payment_amount`: the monthly payment amount, or the loan balance
if the balance is not more than the monthly payment. -/
def get_payment_amount (l : Loan) : ℚ :=
  if l.monthlyPayment < l.balance then l.monthlyPayment else l.balance

/-- `Loan.get_interest_accrued`: interest accrued over the given number of days. -/
def get_interest_accrued (l : Loan) (daysAccrued : ℚ) : ℚ :=
  l.balance * l.interestRate * (daysAccrued / 365)

/-- `Loan.get_interest_to_payment_ratio`: ratio of interest accrued over a
period to the monthly payment; Python raises `ZeroDivisionError` when the
monthly payment is zero. -/
def get_interest_to_payment_ratio (l : Loan) (daysAccrued : ℚ) : Except PyErr ℚ :=
  pydiv (l.get_interest_accrued daysAccrued) l.monthlyPayment

end Loan

/-! ## `heuristics.py`

Each heuristic receives the candidate loan list and a days-per-period constant
and returns the chosen loan.  A Python heuristic may return `None` (modelled as
`Option.none`) or raise; `random_heuristic`'s call to `random.randint(1, len(loans))`
is modelled by an extra `draw` parameter standing for the generator's output,
reduced into the valid range. -/

/-- `heuristics.first_loan_heuristic`: the first loan in the list (`loans[0]`
raises `IndexError` on an empty list). -/
def first_loan_heuristic (loans : List Loan) (daysSinceLastPayment : ℚ) :
    Except PyErr (Option Loan) :=
  match loans with
  | [] => .error .indexError
  | l :: _ => .ok (some l)

/-- `heuristics.random_heuristic`: a uniformly random loan.
`random.randint(1, len(loans))` raises `ValueError` when the list is empty;
otherwise its outcome is an index in `[1, len(loans)]`, modelled by the `draw`
parameter. -/
def random_heuristic (draw : Nat) (loans : List Loan) (daysSinceLastPayment : ℚ) :
    Except PyErr (Option Loan) :=
  if loans.isEmpty then .error .valueError
  else .ok loans[draw % loans.length]?

/-- `heuristics.max_balance_heuristic`: the loan with the highest balance,
tracked through a running maximum initialized to `None` at `-1`. -/
def max_balance_heuristic (loans : List Loan) (daysSinceLastPayment : ℚ) :
    Except PyErr (Option Loan) :=
  .ok (loans.foldl
    (fun acc l => if acc.2 < l.balance then (some l, l.balance) else acc)
    ((none : Option Loan), (-1 : ℚ))).1

/-- `heuristics.max_interest_rate_heuristic`: the loan with the highest
interest rate, ties settled by the larger balance.  The tie branch reads
`maxInterestLoan.balance`, which raises `AttributeError` when the running
maximum is still `None`. -/
def max_interest_rate_heuristic (loans : List Loan) (daysSinceLastPayment : ℚ) :
    Except PyErr (Option Loan) := do
  let acc ← loans.foldlM
    (fun (acc : Option Loan × ℚ) l =>
      if acc.2 < l.interestRate then pure (some l, l.interestRate)
      else if l.interestRate = acc.2 then
        match acc.1 with
        | none => .error .attributeError
        | some best =>
          pure (if best.balance < l.balance then (some l, acc.2) else acc)
      else pure acc)
    ((none : Option Loan), (-1 : ℚ))
  pure acc.1

/-- `heuristics.max_interest_accrual_heuristic`: the loan accruing the most
interest over 365 days. -/
def max_interest_accrual_heuristic (loans : List Loan) (daysSinceLastPayment : ℚ) :
    Except PyErr (Option Loan) :=
  .ok (loans.foldl
    (fun acc l =>
      let interest := l.get_interest_accrued 365
      if acc.2 < interest then (some l, interest) else acc)
    ((none : Option Loan), (-1 : ℚ))).1

/-- `heuristics.max_ipr_heuristic`: the loan with the highest
interest-to-monthly-payment ratio (propagates the `ZeroDivisionError` of
`get_interest_to_payment_ratio` on a zero monthly payment). -/
def max_ipr_heuristic (loans : List Loan) (daysSinceLastPayment : ℚ) :
    Except PyErr (Option Loan) := do
  let acc ← loans.foldlM
    (fun (acc : Option Loan × ℚ) l => do
      let ipr ← l.get_interest_to_payment_ratio daysSinceLastPayment
      pure (if acc.2 < ipr then (some l, ipr) else acc))
    ((none : Option Loan), (-1 : ℚ))
  pure acc.1

/-- `heuristics.min_percent_payment_applied_heuristic`: the loan with the
lowest fraction of its monthly payment applied to principal, tracked through a
running minimum initialized to `sys.maxint`. -/
def min_percent_payment_applied_heuristic (loans : List Loan) (daysSinceLastPayment : ℚ) :
    Except PyErr (Option Loan) := do
  let acc ← loans.foldlM
    (fun (acc : Option Loan × ℚ) l => do
      let interest := l.get_interest_accrued daysSinceLastPayment
      let pct ← pydiv (l.monthlyPayment - interest) l.monthlyPayment
      pure (if pct < acc.2 then (some l, pct) else acc))
    ((none : Option Loan), sysMaxint)
  pure acc.1

/-- The shape of a registered heuristic: the random draw (ignored by the
deterministic strategies), the candidate loans and the days-per-period constant. -/
def PyHeuristic := Nat → List Loan → ℚ → Except PyErr (Option Loan)

/-- `heuristics.ALL_HEURISTICS`: every module function whose name ends in
`_heuristic`, in the alphabetical order produced by `inspect.getmembers`. -/
def ALL_HEURISTICS : List PyHeuristic :=
  [fun _ => first_loan_heuristic,
   fun _ => max_balance_heuristic,
   fun _ => max_interest_accrual_heuristic,
   fun _ => max_interest_rate_heuristic,
   fun _ => max_ipr_heuristic,
   fun _ => min_percent_payment_applied_heuristic,
   random_heuristic]

/-! ## `payment_device.py` — the simulation engine

The engine's mutable state is threaded explicitly.  The allocation heuristic
(`self.allocationDecider`) is passed as a function parameter of type `Decider`.
Of the reference best device (`self.bestDevice`) only
`bestDevice.paymentStats.amountPaid` is ever read, so the reference is
modelled as that optional amount.  The textual payment-plan trace is modelled
as a list of events (string formatting, and the per-loan "Increase …" lines
whose `dict` iteration order Python leaves unspecified, are not modelled).
`payments` is an instrumentation field logging one entry per
`amountPaid += payment` event of `_make_loan_payment`. -/

/-- The type of `self.allocationDecider` as invoked by the engine. -/
def Decider := List Loan → ℚ → Except PyErr (Option Loan)

/-- Events appended to `self.paymentPlan`. -/
inductive TraceEvent where
  | finishedInZero (name : String)
  | pruneAt (amount : ℚ)
  | loanFinished (name : String) (months : ℤ)
  | endOfTime
  | blank
deriving DecidableEq, Repr

/-- `payment_device.PaymentStats` in absolute mode (`isRelative=False`).
`finishDateStr` (a formatted string) is not modelled. -/
structure PaymentStats where
  dateOfBirth : Date
  startDate : Option Date
  finishDate : Option Date
  amountPaid : ℚ
  monthsPaid : ℤ
  yearsPaid : ℚ
  finishAge : ℤ
deriving DecidableEq, Repr

/-- `PaymentStats.__init__` for an absolute-statistics instance. -/
def PaymentStats.init (dateOfBirth : Date) : PaymentStats :=
  ⟨dateOfBirth, none, none, 0, 0, 0, 0⟩

/-- Run state of `payment_device.PaymentDevice`. -/
structure PaymentDevice where
  originalLoans : List Loan
  loans : List Loan
  bestAmountPaid : Option ℚ
  paymentStats : PaymentStats
  paymentPlan : List TraceEvent
  payments : List ℚ
deriving DecidableEq, Repr

namespace PaymentDevice

/-- `PaymentDevice.MAX_YEAR`: if this year is reached, stop the simulation. -/
def MAX_YEAR : Nat := 3000

/-- The class attributes defined on `PaymentDevice` are `ONE_DAY_DELTA`,
`ONE_MONTH_DELTA` and `MAX_YEAR`; the class has no `DAYS_PER_MONTH` attribute
(that constant is `LoanConfig.DAYS_PER_MONTH` in `loan_config.py`).
`loan_planner.py` nevertheless reads `payment_device.PaymentDevice.DAYS_PER_MONTH`,
so the lookup is modelled as an `Option` that is `none`; reading it raises
`AttributeError`. -/
def DAYS_PER_MONTH_lookup : Option ℚ := none

/-- `PaymentDevice.__init__`: remember the loans, record a trace line for every
loan that starts with a non-positive balance, start with empty statistics. -/
def init (dateOfBirth : Date) (loans : List Loan) (bestAmountPaid : Option ℚ) :
    PaymentDevice :=
  { originalLoans := loans
    loans := []
    bestAmountPaid := bestAmountPaid
    paymentStats := PaymentStats.init dateOfBirth
    paymentPlan := loans.filterMap
      (fun l => if l.balance ≤ 0 then some (.finishedInZero l.name) else none)
    payments := [] }

/-- `PaymentDevice._should_prune_plan`: prune when a best device was given and
this plan's cumulative amount paid strictly exceeds the best device's amount
paid. -/
def should_prune_plan (st : PaymentDevice) : Bool :=
  match st.bestAmountPaid with
  | none => false
  | some best => best < st.paymentStats.amountPaid

/-- `PaymentDevice._make_loan_payment`: accrue interest on the balance, then
subtract `get_payment_amount()`.  Returns the updated loan and the payment
added to `amountPaid`; the loan is paid off when its new balance is `≤ 0`. -/
def make_loan_payment (l : Loan) (daysSinceLastPayment : ℚ) : Loan × ℚ :=
  let l1 : Loan := { l with balance := l.balance + l.get_interest_accrued daysSinceLastPayment }
  let payment := l1.get_payment_amount
  ({ l1 with balance := l1.balance - payment }, payment)

/-- One pass of `PaymentDevice._make_payments_on_date` over the working set:
pay every loan whose `paymentDay` is the given day of month, removing the ones
that reach a non-positive balance.  Returns (remaining, paid-off, payments). -/
def payDueLoans (daysSinceLastPayment : ℚ) (day : Nat) :
    List Loan → List Loan × List Loan × List ℚ
  | [] => ([], [], [])
  | l :: rest =>
    let res := payDueLoans daysSinceLastPayment day rest
    if l.paymentDay = day then
      let lp := make_loan_payment l daysSinceLastPayment
      if lp.1.balance ≤ 0 then (res.1, lp.1 :: res.2.1, lp.2 :: res.2.2)
      else (lp.1 :: res.1, res.2.1, lp.2 :: res.2.2)
    else (l :: res.1, res.2.1, res.2.2)

/-- `PaymentDevice._make_payments_on_date`: interest accrues over the days
since exactly one calendar month before the payment date. -/
def make_payments_on_date (st : PaymentDevice) (paymentDate : Date) :
    PaymentDevice × List Loan :=
  let days : ℚ := (daysSinceLastPayment paymentDate : ℚ)
  let res := payDueLoans days paymentDate.day st.loans
  ({ st with
      loans := res.1
      paymentStats := { st.paymentStats with
        amountPaid := st.paymentStats.amountPaid + res.2.2.sum }
      payments := st.payments ++ res.2.2 },
   res.2.1)

/-- Strictly decreasing measure of a date bounded by `MAX_YEAR`, used to bound
the day-stepping loop. -/
def dateMeasure (d : Date) : Nat :=
  (3000 - d.year) * 500 + (13 - d.month) * 35 + (32 - d.day)

/-- Day-stepping loop of `PaymentDevice._make_payments_until_loan_paid`,
structured on fuel; `dateMeasure` supplies sufficient fuel. -/
def untilAux : Nat → PaymentDevice → Date → PaymentDevice × List Loan × Date
  | 0, st, d => (st, [], d)
  | fuel + 1, st, d =>
    if d.year < MAX_YEAR then
      if should_prune_plan st then
        ({ st with paymentPlan := st.paymentPlan ++ [.pruneAt st.paymentStats.amountPaid] },
         [], d)
      else
        let pr := make_payments_on_date st d
        if pr.2.isEmpty then untilAux fuel pr.1 d.addOneDay
        else (pr.1, pr.2, d.addOneDay)
    else (st, [], d)

/-- `PaymentDevice._make_payments_until_loan_paid`: make payments day by day
until one or more loans are paid off, the plan is pruned, or `MAX_YEAR` is
reached.  Returns the final state, the paid loans and the current date. -/
def make_payments_until_loan_paid (st : PaymentDevice) (currentDate : Date) :
    PaymentDevice × List Loan × Date :=
  untilAux (dateMeasure currentDate) st currentDate

/-- `PaymentDevice._handle_paid_loan`'s eligibility filter: only loans whose
balance exceeds their monthly payment may receive reallocated capacity. -/
def getEligibleLoans (loans : List Loan) : List Loan :=
  loans.filter (fun x => x.monthlyPayment < x.balance)

/-- The per-dollar loop of `PaymentDevice._handle_paid_loan`: for each currency
unit, re-evaluate the eligible set and the heuristic and raise that loan's
monthly payment by one.  A unit with no eligible loans is simply skipped.
A heuristic that returns `None` makes `loan.monthlyPayment += 1` raise
`AttributeError`. -/
def allocate_dollars (decider : Decider) : Nat → List Loan → Except PyErr (List Loan)
  | 0, loans => .ok loans
  | n + 1, loans =>
    let eligible := getEligibleLoans loans
    if eligible.isEmpty then allocate_dollars decider n loans
    else
      match decider eligible LoanConfig.DAYS_PER_MONTH with
      | .error e => .error e
      | .ok none => .error .attributeError
      | .ok (some l) =>
        allocate_dollars decider n
          (loans.map (fun x =>
            if x.name = l.name then { x with monthlyPayment := x.monthlyPayment + 1 } else x))

/-- `PaymentDevice._handle_paid_loan`: record the payoff in the trace, then
redistribute `int(paidLoan.monthlyPayment)` one unit at a time. -/
def handle_paid_loan (decider : Decider) (st : PaymentDevice) (paidLoan : Loan)
    (timeSoFar : RelDelta) : Except PyErr PaymentDevice := do
  let st := { st with
    paymentPlan := st.paymentPlan ++ [TraceEvent.loanFinished paidLoan.name (to_months timeSoFar)] }
  let newLoans ← allocate_dollars decider (pyInt paidLoan.monthlyPayment).toNat st.loans
  pure { st with loans := newLoans, paymentPlan := st.paymentPlan ++ [TraceEvent.blank] }

/-- `PaymentDevice._handle_paid_loans`: with no paid loans the run has reached
the end of time and fails; otherwise handle each paid loan and succeed. -/
def handle_paid_loans (decider : Decider) (st : PaymentDevice) (paidLoans : List Loan)
    (currentDate : Date) : Except PyErr (PaymentDevice × Bool) :=
  let timeSoFar := relativedelta currentDate (st.paymentStats.startDate.getD ⟨1, 1, 1⟩)
  if paidLoans.isEmpty then
    .ok ({ st with paymentPlan := st.paymentPlan ++ [.endOfTime] }, false)
  else do
    let st' ← paidLoans.foldlM (fun s l => handle_paid_loan decider s l timeSoFar) st
    pure (st', true)

/-- `PaymentDevice._collect_payment_stats`: set the final statistics after a
successful simulation.  The finish-age computation can raise (`ValueError`
from `get_age_on_date`). -/
def collect_payment_stats (st : PaymentDevice) (currentDate : Date) :
    Except PyErr PaymentDevice := do
  let timeDiff := relativedelta currentDate (st.paymentStats.startDate.getD ⟨1, 1, 1⟩)
  let m := to_months timeDiff
  let age ← get_age_on_date st.paymentStats.dateOfBirth currentDate
  pure { st with paymentStats := { st.paymentStats with
    finishDate := some currentDate
    monthsPaid := m
    yearsPaid := (m : ℚ) / 12
    finishAge := age } }

/-- Outer loop of `PaymentDevice.pay_loans` (`while self.loans and status`),
structured on fuel; each successful iteration removes at least one loan from
the working set, so `loans.length + 1` supplies sufficient fuel. -/
def payLoansAux (decider : Decider) : Nat → PaymentDevice → Date →
    Except PyErr (Bool × PaymentDevice)
  | 0, st, _ => .ok (false, st)
  | fuel + 1, st, currentDate =>
    if st.loans.isEmpty then do
      let st' ← collect_payment_stats st currentDate
      pure (true, st')
    else
      let res := make_payments_until_loan_paid st currentDate
      match handle_paid_loans decider res.1 res.2.1 res.2.2 with
      | .error e => .error e
      | .ok (st'', false) => .ok (false, st'')
      | .ok (st'', true) => payLoansAux decider fuel st'' res.2.2

/-- `PaymentDevice.pay_loans`: deep-copy the loans with a positive balance
into the working set (failing at once when it is empty), record the start
date (`datetime.now()`, passed as `startDate`), run the payment loop, and
collect statistics only on success.  Returns the success flag with the final
state. -/
def pay_loans (decider : Decider) (dev : PaymentDevice) (startDate : Date) :
    Except PyErr (Bool × PaymentDevice) :=
  let loans := dev.originalLoans.filter (fun l => 0 < l.balance)
  let st := { dev with
    loans := loans
    paymentStats := { dev.paymentStats with startDate := some startDate } }
  if loans.isEmpty then .ok (false, st)
  else payLoansAux decider (loans.length + 1) st startDate

end PaymentDevice

/-! ## `loan_planner.LoanPlanner` — changed-scenario preparation -/

namespace LoanPlanner

/-- Repeat a per-currency-unit transformation `n` times (Python's
`for dollar in range(n)`), propagating exceptions. -/
def iterateUnits (f : List Loan → Except PyErr (List Loan)) :
    Nat → List Loan → Except PyErr (List Loan)
  | 0, loans => .ok loans
  | n + 1, loans => do iterateUnits f n (← f loans)

/-- One unit of `LoanPlanner._allocate_upfront_payment`'s first loop:
`heuristic(filter(unpaid, loans), payment_device.PaymentDevice.DAYS_PER_MONTH)`
then reduce the chosen loan's balance by one.  Reading the nonexistent
`PaymentDevice.DAYS_PER_MONTH` attribute raises `AttributeError`. -/
def upfront_unit (heuristic : Decider) (loans : List Loan) : Except PyErr (List Loan) :=
  let cand := loans.filter (fun x => 0 < x.balance)
  match PaymentDevice.DAYS_PER_MONTH_lookup with
  | none => .error .attributeError
  | some dpm => do
    match ← heuristic cand dpm with
    | none => .error .attributeError
    | some l =>
      pure (loans.map (fun x =>
        if x.name = l.name then
          { x with upfrontPayment := x.upfrontPayment + 1, balance := x.balance - 1 }
        else x))

/-- One unit of the monthly-increase loops of
`LoanPlanner._allocate_upfront_payment` / `_allocate_monthly_increase`:
choose an unpaid loan via the heuristic and raise its monthly payment by one. -/
def increase_unit (heuristic : Decider) (loans : List Loan) : Except PyErr (List Loan) :=
  let cand := loans.filter (fun x => 0 < x.balance)
  match PaymentDevice.DAYS_PER_MONTH_lookup with
  | none => .error .attributeError
  | some dpm => do
    match ← heuristic cand dpm with
    | none => .error .attributeError
    | some l =>
      pure (loans.map (fun x =>
        if x.name = l.name then
          { x with monthlyIncrease := x.monthlyIncrease + 1,
                   monthlyPayment := x.monthlyPayment + 1 }
        else x))

/-- `LoanPlanner._allocate_upfront_payment`: distribute
`int(self.loanConfig.upfrontPayment)` one unit at a time to unpaid loans, then
turn the monthly payments of loans brought to a non-positive balance into
additional monthly capacity for the remaining unpaid loans. -/
def allocate_upfront_payment (upfrontPayment : ℚ) (heuristic : Decider)
    (loans : List Loan) : Except PyErr (List Loan) := do
  let loans ← iterateUnits (upfront_unit heuristic) (pyInt upfrontPayment).toNat loans
  (loans.filter (fun x => x.balance ≤ 0)).foldlM
    (fun ls paidLoan =>
      iterateUnits (increase_unit heuristic) (pyInt paidLoan.monthlyPayment).toNat ls)
    loans

/-- `LoanPlanner._allocate_monthly_increase`: distribute
`int(self.loanConfig.monthlyIncrease)` one unit at a time. -/
def allocate_monthly_increase (monthlyIncrease : ℚ) (heuristic : Decider)
    (loans : List Loan) : Except PyErr (List Loan) :=
  iterateUnits (increase_unit heuristic) (pyInt monthlyIncrease).toNat loans

end LoanPlanner

/-! ## Claims about `Loan` and `get_age_on_date` -/

/-- C4: `get_payment_amount()` returns the lesser of `monthlyPayment` and the
current `balance`; in particular, whenever `balance ≤ monthlyPayment` it
returns exactly the balance, so the final payment never overpays. -/
theorem C4_payment_amount_min (l : Loan) :
    l.get_payment_amount = min l.monthlyPayment l.balance ∧
    (l.balance ≤ l.monthlyPayment → l.get_payment_amount = l.balance) := by
  constructor
  · unfold Loan.get_payment_amount
    rcases lt_or_ge l.monthlyPayment l.balance with h | h
    · rw [if_pos h, min_eq_left h.le]
    · rw [if_neg (not_lt.mpr h), min_eq_right h]
  · intro h
    unfold Loan.get_payment_amount
    rw [if_neg (not_lt.mpr h)]

/-- Witness for C4 at a concrete loan with `balance ≤ monthlyPayment`. -/
theorem C4_payment_amount_min_witness :
    (Loan.init "A" 50 10 100 1).balance ≤ (Loan.init "A" 50 10 100 1).monthlyPayment ∧
    (Loan.init "A" 50 10 100 1).get_payment_amount = (Loan.init "A" 50 10 100 1).balance :=
  ⟨by decide, (C4_payment_amount_min (Loan.init "A" 50 10 100 1)).2 (by decide)⟩

/-- C8: `get_interest_to_payment_ratio(days)` raises `ZeroDivisionError`
exactly when `monthlyPayment` is zero, and otherwise returns
`get_interest_accrued(days) / monthlyPayment` without error. -/
theorem C8_interest_ratio_zero_division (l : Loan) (daysAccrued : ℚ) :
    (l.get_interest_to_payment_ratio daysAccrued = .error .zeroDivisionError ↔
      l.monthlyPayment = 0) ∧
    (l.monthlyPayment ≠ 0 →
      l.get_interest_to_payment_ratio daysAccrued =
        .ok (l.get_interest_accrued daysAccrued / l.monthlyPayment)) := by
  unfold Loan.get_interest_to_payment_ratio pydiv
  constructor
  · constructor
    · intro h
      by_contra hmp
      rw [if_neg hmp] at h
      exact Except.noConfusion h
    · intro h
      rw [if_pos h]
  · intro h
    rw [if_neg h]

/-- Witness for C8 at concrete loans with zero and nonzero monthly payments. -/
theorem C8_interest_ratio_zero_division_witness :
    ((Loan.init "Z" 100 10 0 1).get_interest_to_payment_ratio 30 =
        .error .zeroDivisionError) ∧
    ((Loan.init "A" 100 10 50 1).monthlyPayment ≠ 0 ∧
      (Loan.init "A" 100 10 50 1).get_interest_to_payment_ratio 365 =
        .ok ((Loan.init "A" 100 10 50 1).get_interest_accrued 365 /
          (Loan.init "A" 100 10 50 1).monthlyPayment)) :=
  ⟨(C8_interest_ratio_zero_division (Loan.init "Z" 100 10 0 1) 30).1.mpr (by decide),
   by decide,
   (C8_interest_ratio_zero_division (Loan.init "A" 100 10 50 1) 365).2 (by decide)⟩

/-- C9: whenever the birth date exists in the evaluation year,
`get_age_on_date` returns the year difference minus one exactly when the
evaluation date's (month, day) precedes the birth date's (month, day), and the
year difference otherwise. -/
theorem C9_age_exact_calendar (dateOfBirth date : Date)
    (hrep : dateOfBirth.day ≤ daysInMonth date.year dateOfBirth.month) :
    get_age_on_date dateOfBirth date =
      .ok (if date.month < dateOfBirth.month ∨
            (dateOfBirth.month = date.month ∧ date.day < dateOfBirth.day)
          then (date.year : ℤ) - dateOfBirth.year - 1
          else (date.year : ℤ) - dateOfBirth.year) := by
  simp only [get_age_on_date, Date.replaceYear, if_pos hrep, gt_iff_lt]
  by_cases h1 : date.month < dateOfBirth.month
  · simp [h1]
  · by_cases h2 : dateOfBirth.month = date.month
    · by_cases h3 : date.day < dateOfBirth.day
      · simp [h1, h2, h3]
      · simp [h1, h2, h3]
    · simp [h1, h2]

/-- Witness for C9: the three cases of the specification for birth date
3/1/2000 — age 23 on 2/28/2024, 24 on 3/1/2024, 24 on 3/2/2024. -/
theorem C9_age_exact_calendar_witness :
    get_age_on_date ⟨2000, 3, 1⟩ ⟨2024, 2, 28⟩ = .ok 23 ∧
    get_age_on_date ⟨2000, 3, 1⟩ ⟨2024, 3, 1⟩ = .ok 24 ∧
    get_age_on_date ⟨2000, 3, 1⟩ ⟨2024, 3, 2⟩ = .ok 24 :=
  ⟨(C9_age_exact_calendar ⟨2000, 3, 1⟩ ⟨2024, 2, 28⟩ (by decide)).trans (by rfl),
   (C9_age_exact_calendar ⟨2000, 3, 1⟩ ⟨2024, 3, 1⟩ (by decide)).trans (by rfl),
   (C9_age_exact_calendar ⟨2000, 3, 1⟩ ⟨2024, 3, 2⟩ (by decide)).trans (by rfl)⟩

/-- C10: `get_age_on_date` is not total: a February-29 birth date makes
`dateOfBirth.replace(year=date.year)` raise `ValueError` whenever the
evaluation year is not a leap year, and the error propagates through the
public finish-age computation `_collect_payment_stats`. -/
theorem C10_age_feb29_raises (dateOfBirth date : Date)
    (hm : dateOfBirth.month = 2) (hd : dateOfBirth.day = 29)
    (hleap : isLeapYear date.year = false) :
    get_age_on_date dateOfBirth date = .error .valueError ∧
    ∀ st : PaymentDevice, st.paymentStats.dateOfBirth = dateOfBirth →
      PaymentDevice.collect_payment_stats st date = .error .valueError := by
  have hrep : dateOfBirth.replaceYear date.year = .error .valueError := by
    unfold Date.replaceYear
    rw [if_neg]
    rw [hm, hd]
    unfold daysInMonth
    simp [hleap]
  have hage : get_age_on_date dateOfBirth date = .error .valueError := by
    unfold get_age_on_date
    rw [hrep]
  refine ⟨hage, ?_⟩
  intro st hdob
  unfold PaymentDevice.collect_payment_stats
  rw [hdob, hage]
  rfl

/-- Witness for C10: birth date 2/29/2000 evaluated in the non-leap year 2023,
both directly and through `_collect_payment_stats`. -/
theorem C10_age_feb29_raises_witness :
    get_age_on_date ⟨2000, 2, 29⟩ ⟨2023, 6, 15⟩ = .error .valueError ∧
    PaymentDevice.collect_payment_stats
      (PaymentDevice.init ⟨2000, 2, 29⟩ [] none) ⟨2023, 6, 15⟩ = .error .valueError :=
  ⟨(C10_age_feb29_raises ⟨2000, 2, 29⟩ ⟨2023, 6, 15⟩ (by decide) (by decide) (by decide)).1,
   (C10_age_feb29_raises ⟨2000, 2, 29⟩ ⟨2023, 6, 15⟩ (by decide) (by decide) (by decide)).2
     (PaymentDevice.init ⟨2000, 2, 29⟩ [] none) (by decide)⟩

/-! ## Claim C3: changed-scenario preparation -/

/-- C3 (code bug): with any positive whole upfront payment or monthly
increase, the changed-scenario preparation raises `AttributeError` on its
first allocation unit, because `loan_planner.py` reads
`payment_device.PaymentDevice.DAYS_PER_MONTH`, an attribute the
`PaymentDevice` class does not define (the constant lives on
`LoanConfig`).  Evaluated here at upfront payment 1 and monthly increase 1 on
a single fresh loan with the first-loan heuristic. -/
theorem C3_changed_scenario_preparation_raises :
    LoanPlanner.allocate_upfront_payment 1 (fun ls d => first_loan_heuristic ls d)
      [Loan.init "A" 1000 10 100 1] = .error .attributeError ∧
    LoanPlanner.allocate_monthly_increase 1 (fun ls d => first_loan_heuristic ls d)
      [Loan.init "A" 1000 10 100 1] = .error .attributeError := by
  constructor
  · with_unfolding_all rfl
  · with_unfolding_all rfl

/-! ## Claim C5: heuristics return a member of the candidate list -/

/-- C5 counterexample: `max_balance_heuristic` is a registered heuristic
(second entry of `ALL_HEURISTICS`), yet on the non-empty candidate list
holding one loan of balance `-2` its running maximum (initialized to `-1`)
is never replaced and it returns `None` rather than a loan of the list. -/
theorem C5_counterexample_returns_none :
    max_balance_heuristic [Loan.init "A" (-2) 0 1 1] LoanConfig.DAYS_PER_MONTH = .ok none := by
  with_unfolding_all rfl

/-- Selection folds that track a running maximum keep returning a loan of the
accumulator-or-remaining-candidates set once one has been selected. -/
theorem foldl_max_from_some (metric : Loan → ℚ) :
    ∀ (ls : List Loan) (b : Loan) (v : ℚ),
      ∃ x, (ls.foldl (fun acc l => if acc.2 < metric l then (some l, metric l) else acc)
          ((some b : Option Loan), v)).1 = some x ∧ (x = b ∨ x ∈ ls) := by
  intro ls
  induction ls with
  | nil => exact fun b v => ⟨b, rfl, Or.inl rfl⟩
  | cons h t ih =>
    intro b v
    simp only [List.foldl_cons]
    by_cases hc : v < metric h
    · rw [if_pos hc]
      obtain ⟨x, hx, hmem⟩ := ih h (metric h)
      refine ⟨x, hx, Or.inr ?_⟩
      rcases hmem with rfl | hm
      · exact List.mem_cons_self _ _
      · exact List.mem_cons_of_mem _ hm
    · rw [if_neg hc]
      obtain ⟨x, hx, hmem⟩ := ih b v
      refine ⟨x, hx, ?_⟩
      rcases hmem with rfl | hm
      · exact Or.inl rfl
      · exact Or.inr (List.mem_cons_of_mem _ hm)

/-- The tie-breaking fold of `max_interest_rate_heuristic` neither raises nor
loses its selection once a loan has been selected. -/
theorem mir_fold_from_some :
    ∀ (ls : List Loan) (b : Loan) (v : ℚ),
      ∃ x v', ls.foldlM (fun (acc : Option Loan × ℚ) l =>
          if acc.2 < l.interestRate then pure ((some l : Option Loan), l.interestRate)
          else if l.interestRate = acc.2 then
            match acc.1 with
            | none => (.error .attributeError : Except PyErr (Option Loan × ℚ))
            | some best => pure (if best.balance < l.balance then (some l, acc.2) else acc)
          else pure acc) ((some b : Option Loan), v)
        = .ok (some x, v') ∧ (x = b ∨ x ∈ ls) := by
  intro ls
  induction ls with
  | nil => exact fun b v => ⟨b, v, rfl, Or.inl rfl⟩
  | cons h t ih =>
    intro b v
    rw [List.foldlM_cons]
    by_cases h1 : v < h.interestRate
    · rw [if_pos h1]
      simp only [pure_bind]
      obtain ⟨x, v', hx, hmem⟩ := ih h h.interestRate
      refine ⟨x, v', hx, Or.inr ?_⟩
      rcases hmem with rfl | hm
      · exact List.mem_cons_self _ _
      · exact List.mem_cons_of_mem _ hm
    · rw [if_neg h1]
      by_cases h2 : h.interestRate = v
      · rw [if_pos h2]
        dsimp only
        by_cases h3 : b.balance < h.balance
        · rw [if_pos h3]
          simp only [pure_bind]
          obtain ⟨x, v', hx, hmem⟩ := ih h v
          refine ⟨x, v', hx, Or.inr ?_⟩
          rcases hmem with rfl | hm
          · exact List.mem_cons_self _ _
          · exact List.mem_cons_of_mem _ hm
        · rw [if_neg h3]
          simp only [pure_bind]
          obtain ⟨x, v', hx, hmem⟩ := ih b v
          refine ⟨x, v', hx, ?_⟩
          rcases hmem with rfl | hm
          · exact Or.inl rfl
          · exact Or.inr (List.mem_cons_of_mem _ hm)
      · rw [if_neg h2]
        simp only [pure_bind]
        obtain ⟨x, v', hx, hmem⟩ := ih b v
        refine ⟨x, v', hx, ?_⟩
        rcases hmem with rfl | hm
        · exact Or.inl rfl
        · exact Or.inr (List.mem_cons_of_mem _ hm)
/-- Binding a success value in the `Except` monad applies the continuation. -/
theorem exceptOkBind {ε α β : Type} (a : α) (f : α → Except ε β) :
    ((Except.ok a : Except ε α) >>= f) = f a := rfl

/-- The ratio fold of `max_ipr_heuristic` neither raises (on nonzero monthly
payments) nor loses its selection once a loan has been selected. -/
theorem ipr_fold_from_some (d : ℚ) :
    ∀ (ls : List Loan), (∀ l ∈ ls, l.monthlyPayment ≠ 0) →
      ∀ (b : Loan) (v : ℚ),
      ∃ x v', ls.foldlM (fun (acc : Option Loan × ℚ) l => do
          let ipr ← l.get_interest_to_payment_ratio d
          pure (if acc.2 < ipr then ((some l : Option Loan), ipr) else acc))
          ((some b : Option Loan), v)
        = .ok (some x, v') ∧ (x = b ∨ x ∈ ls) := by
  intro ls
  induction ls with
  | nil => exact fun _ b v => ⟨b, v, rfl, Or.inl rfl⟩
  | cons h t ih =>
    intro hmp b v
    rw [List.foldlM_cons]
    have hh : h.get_interest_to_payment_ratio d =
        .ok (h.get_interest_accrued d / h.monthlyPayment) := by
      unfold Loan.get_interest_to_payment_ratio pydiv
      rw [if_neg (hmp h (List.mem_cons_self _ _))]
    have hmp' : ∀ l ∈ t, l.monthlyPayment ≠ 0 :=
      fun l hl => hmp l (List.mem_cons_of_mem _ hl)
    dsimp only
    rw [hh, exceptOkBind]
    by_cases hc : v < h.get_interest_accrued d / h.monthlyPayment
    · rw [if_pos hc]
      simp only [pure_bind]
      obtain ⟨x, v', hx, hmem⟩ := ih hmp' h _
      refine ⟨x, v', hx, Or.inr ?_⟩
      rcases hmem with rfl | hm
      · exact List.mem_cons_self _ _
      · exact List.mem_cons_of_mem _ hm
    · rw [if_neg hc]
      simp only [pure_bind]
      obtain ⟨x, v', hx, hmem⟩ := ih hmp' b v
      refine ⟨x, v', hx, ?_⟩
      rcases hmem with rfl | hm
      · exact Or.inl rfl
      · exact Or.inr (List.mem_cons_of_mem _ hm)

/-- The principal-fraction fold of `min_percent_payment_applied_heuristic`
neither raises (on nonzero monthly payments) nor loses its selection once a
loan has been selected. -/
theorem mpct_fold_from_some (d : ℚ) :
    ∀ (ls : List Loan), (∀ l ∈ ls, l.monthlyPayment ≠ 0) →
      ∀ (b : Loan) (v : ℚ),
      ∃ x v', ls.foldlM (fun (acc : Option Loan × ℚ) l => do
          let interest := l.get_interest_accrued d
          let pct ← pydiv (l.monthlyPayment - interest) l.monthlyPayment
          pure (if pct < acc.2 then ((some l : Option Loan), pct) else acc))
          ((some b : Option Loan), v)
        = .ok (some x, v') ∧ (x = b ∨ x ∈ ls) := by
  intro ls
  induction ls with
  | nil => exact fun _ b v => ⟨b, v, rfl, Or.inl rfl⟩
  | cons h t ih =>
    intro hmp b v
    rw [List.foldlM_cons]
    have hh : pydiv (h.monthlyPayment - h.get_interest_accrued d) h.monthlyPayment =
        .ok ((h.monthlyPayment - h.get_interest_accrued d) / h.monthlyPayment) := by
      unfold pydiv
      rw [if_neg (hmp h (List.mem_cons_self _ _))]
    have hmp' : ∀ l ∈ t, l.monthlyPayment ≠ 0 :=
      fun l hl => hmp l (List.mem_cons_of_mem _ hl)
    dsimp only
    rw [hh, exceptOkBind]
    by_cases hc : (h.monthlyPayment - h.get_interest_accrued d) / h.monthlyPayment < v
    · rw [if_pos hc]
      simp only [pure_bind]
      obtain ⟨x, v', hx, hmem⟩ := ih hmp' h _
      refine ⟨x, v', hx, Or.inr ?_⟩
      rcases hmem with rfl | hm
      · exact List.mem_cons_self _ _
      · exact List.mem_cons_of_mem _ hm
    · rw [if_neg hc]
      simp only [pure_bind]
      obtain ⟨x, v', hx, hmem⟩ := ih hmp' b v
      refine ⟨x, v', hx, ?_⟩
      rcases hmem with rfl | hm
      · exact Or.inl rfl
      · exact Or.inr (List.mem_cons_of_mem _ hm)

/-- `first_loan_heuristic` returns the head of a non-empty candidate list. -/
theorem first_loan_heuristic_mem (a : Loan) (t : List Loan) (d : ℚ) :
    ∃ l ∈ a :: t, first_loan_heuristic (a :: t) d = .ok (some l) :=
  ⟨a, List.mem_cons_self _ _, rfl⟩

/-- `random_heuristic` returns an element of a non-empty candidate list for
every outcome of the random draw. -/
theorem random_heuristic_mem (draw : Nat) (a : Loan) (t : List Loan) (d : ℚ) :
    ∃ l ∈ a :: t, random_heuristic draw (a :: t) d = .ok (some l) := by
  have hidx : draw % (a :: t).length < (a :: t).length :=
    Nat.mod_lt _ (Nat.succ_pos _)
  refine ⟨(a :: t).get ⟨draw % (a :: t).length, hidx⟩, List.get_mem _ _ hidx, ?_⟩
  unfold random_heuristic
  rw [if_neg (by simp)]
  rw [List.getElem?_eq_getElem hidx]
  rfl

/-- `max_balance_heuristic` returns an element of a non-empty candidate list
whose head has nonnegative balance. -/
theorem max_balance_heuristic_mem (a : Loan) (t : List Loan) (d : ℚ)
    (ha : 0 ≤ a.balance) :
    ∃ l ∈ a :: t, max_balance_heuristic (a :: t) d = .ok (some l) := by
  unfold max_balance_heuristic
  rw [List.foldl_cons]
  dsimp only
  rw [if_pos (by linarith : (-1 : ℚ) < a.balance)]
  obtain ⟨x, hx, hmem⟩ := foldl_max_from_some (fun l => l.balance) t a a.balance
  refine ⟨x, ?_, ?_⟩
  · rcases hmem with rfl | hm
    · exact List.mem_cons_self _ _
    · exact List.mem_cons_of_mem _ hm
  · exact congrArg Except.ok hx

/-- `max_interest_accrual_heuristic` returns an element of a non-empty
candidate list whose head has nonnegative balance and rate. -/
theorem max_interest_accrual_heuristic_mem (a : Loan) (t : List Loan) (d : ℚ)
    (hb : 0 ≤ a.balance) (hr : 0 ≤ a.interestRate) :
    ∃ l ∈ a :: t, max_interest_accrual_heuristic (a :: t) d = .ok (some l) := by
  have hacc : (0 : ℚ) ≤ a.get_interest_accrued 365 := by
    unfold Loan.get_interest_accrued
    have : (0 : ℚ) ≤ (365 : ℚ) / 365 := by norm_num
    exact mul_nonneg (mul_nonneg hb hr) this
  unfold max_interest_accrual_heuristic
  rw [List.foldl_cons]
  dsimp only
  rw [if_pos (by linarith : (-1 : ℚ) < a.get_interest_accrued 365)]
  obtain ⟨x, hx, hmem⟩ :=
    foldl_max_from_some (fun l => l.get_interest_accrued 365) t a (a.get_interest_accrued 365)
  refine ⟨x, ?_, ?_⟩
  · rcases hmem with rfl | hm
    · exact List.mem_cons_self _ _
    · exact List.mem_cons_of_mem _ hm
  · exact congrArg Except.ok hx

/-- `max_interest_rate_heuristic` returns an element of a non-empty candidate
list whose head has nonnegative rate. -/
theorem max_interest_rate_heuristic_mem (a : Loan) (t : List Loan) (d : ℚ)
    (hr : 0 ≤ a.interestRate) :
    ∃ l ∈ a :: t, max_interest_rate_heuristic (a :: t) d = .ok (some l) := by
  unfold max_interest_rate_heuristic
  rw [List.foldlM_cons]
  dsimp only
  rw [if_pos (by linarith : (-1 : ℚ) < a.interestRate)]
  obtain ⟨x, v', hx, hmem⟩ := mir_fold_from_some t a a.interestRate
  refine ⟨x, ?_, ?_⟩
  · rcases hmem with rfl | hm
    · exact List.mem_cons_self _ _
    · exact List.mem_cons_of_mem _ hm
  · rw [pure_bind, hx]
    rfl

/-- `max_ipr_heuristic` returns an element of a non-empty candidate list of
loans with nonnegative balances and rates and positive monthly payments, for
a nonnegative days-per-period constant. -/
theorem max_ipr_heuristic_mem (a : Loan) (t : List Loan) (d : ℚ) (hd : 0 ≤ d)
    (hb : 0 ≤ a.balance) (hr : 0 ≤ a.interestRate)
    (hmp : ∀ l ∈ a :: t, 0 < l.monthlyPayment) :
    ∃ l ∈ a :: t, max_ipr_heuristic (a :: t) d = .ok (some l) := by
  have hmpa : a.monthlyPayment ≠ 0 := ne_of_gt (hmp a (List.mem_cons_self _ _))
  have hh : a.get_interest_to_payment_ratio d =
      .ok (a.get_interest_accrued d / a.monthlyPayment) := by
    unfold Loan.get_interest_to_payment_ratio pydiv
    rw [if_neg hmpa]
  have hpos : (0 : ℚ) ≤ a.get_interest_accrued d / a.monthlyPayment := by
    unfold Loan.get_interest_accrued
    have h365 : (0 : ℚ) ≤ d / 365 := by positivity
    exact div_nonneg (mul_nonneg (mul_nonneg hb hr) h365)
      (le_of_lt (hmp a (List.mem_cons_self _ _)))
  unfold max_ipr_heuristic
  rw [List.foldlM_cons]
  dsimp only
  rw [hh, exceptOkBind]
  rw [if_pos (by linarith : (-1 : ℚ) < a.get_interest_accrued d / a.monthlyPayment)]
  obtain ⟨x, v', hx, hmem⟩ := ipr_fold_from_some d t
    (fun l hl => ne_of_gt (hmp l (List.mem_cons_of_mem _ hl))) a _
  refine ⟨x, ?_, ?_⟩
  · rcases hmem with rfl | hm
    · exact List.mem_cons_self _ _
    · exact List.mem_cons_of_mem _ hm
  · rw [pure_bind, hx]
    rfl

/-- `min_percent_payment_applied_heuristic` returns an element of a non-empty
candidate list of loans with nonnegative balances and rates and positive
monthly payments, for a nonnegative days-per-period constant. -/
theorem min_percent_heuristic_mem (a : Loan) (t : List Loan) (d : ℚ) (hd : 0 ≤ d)
    (hb : 0 ≤ a.balance) (hr : 0 ≤ a.interestRate)
    (hmp : ∀ l ∈ a :: t, 0 < l.monthlyPayment) :
    ∃ l ∈ a :: t, min_percent_payment_applied_heuristic (a :: t) d = .ok (some l) := by
  have hmpa : (0 : ℚ) < a.monthlyPayment := hmp a (List.mem_cons_self _ _)
  have hh : pydiv (a.monthlyPayment - a.get_interest_accrued d) a.monthlyPayment =
      .ok ((a.monthlyPayment - a.get_interest_accrued d) / a.monthlyPayment) := by
    unfold pydiv
    rw [if_neg (ne_of_gt hmpa)]
  have hacc : (0 : ℚ) ≤ a.get_interest_accrued d := by
    unfold Loan.get_interest_accrued
    have h365 : (0 : ℚ) ≤ d / 365 := by positivity
    exact mul_nonneg (mul_nonneg hb hr) h365
  have hlt : (a.monthlyPayment - a.get_interest_accrued d) / a.monthlyPayment < sysMaxint := by
    have h1 : (a.monthlyPayment - a.get_interest_accrued d) / a.monthlyPayment ≤ 1 := by
      rw [div_le_one hmpa]
      linarith
    have h2 : (1 : ℚ) < sysMaxint := by
      unfold sysMaxint
      norm_num
    linarith
  unfold min_percent_payment_applied_heuristic
  rw [List.foldlM_cons]
  dsimp only
  rw [hh, exceptOkBind]
  rw [if_pos hlt]
  obtain ⟨x, v', hx, hmem⟩ := mpct_fold_from_some d t
    (fun l hl => ne_of_gt (hmp l (List.mem_cons_of_mem _ hl))) a _
  refine ⟨x, ?_, ?_⟩
  · rcases hmem with rfl | hm
    · exact List.mem_cons_self _ _
    · exact List.mem_cons_of_mem _ hm
  · rw [pure_bind, hx]
    rfl

/-- C5 (amended): every registered heuristic, applied to a non-empty candidate
list of loans with nonnegative balances, nonnegative stored interest rates and
positive monthly payments, together with the days-per-period constant, returns
exactly one loan that is an element of the list (never `None`, never an error),
for every outcome of the random draw. -/
theorem C5_heuristics_return_member (h : PyHeuristic) (hmem : h ∈ ALL_HEURISTICS)
    (draw : Nat) (loans : List Loan) (hne : loans ≠ [])
    (hgood : ∀ l ∈ loans, 0 ≤ l.balance ∧ 0 ≤ l.interestRate ∧ 0 < l.monthlyPayment) :
    ∃ l ∈ loans, h draw loans LoanConfig.DAYS_PER_MONTH = .ok (some l) := by
  obtain ⟨a, t, rfl⟩ : ∃ a t, loans = a :: t := by
    cases loans with
    | nil => exact absurd rfl hne
    | cons a t => exact ⟨a, t, rfl⟩
  have hd : (0 : ℚ) ≤ LoanConfig.DAYS_PER_MONTH := by
    unfold LoanConfig.DAYS_PER_MONTH
    norm_num
  have hb := (hgood a (List.mem_cons_self _ _)).1
  have hr := (hgood a (List.mem_cons_self _ _)).2.1
  have hmp : ∀ l ∈ a :: t, 0 < l.monthlyPayment := fun l hl => (hgood l hl).2.2
  simp only [ALL_HEURISTICS, List.mem_cons, List.not_mem_nil, or_false] at hmem
  rcases hmem with rfl | rfl | rfl | rfl | rfl | rfl | rfl
  · exact first_loan_heuristic_mem a t _
  · exact max_balance_heuristic_mem a t _ hb
  · exact max_interest_accrual_heuristic_mem a t _ hb hr
  · exact max_interest_rate_heuristic_mem a t _ hr
  · exact max_ipr_heuristic_mem a t _ hd hb hr hmp
  · exact min_percent_heuristic_mem a t _ hd hb hr hmp
  · exact random_heuristic_mem draw a t _

/-- Witness for C5 (amended) at the first registered heuristic and a concrete
one-loan candidate list. -/
theorem C5_heuristics_return_member_witness :
    ((fun _ => first_loan_heuristic) : PyHeuristic) ∈ ALL_HEURISTICS ∧
    ([(⟨"A", 100, 0, 50, 1, 0, 0⟩ : Loan)] ≠ []) ∧
    (∀ l ∈ [(⟨"A", 100, 0, 50, 1, 0, 0⟩ : Loan)],
      0 ≤ l.balance ∧ 0 ≤ l.interestRate ∧ 0 < l.monthlyPayment) ∧
    ∃ l ∈ [(⟨"A", 100, 0, 50, 1, 0, 0⟩ : Loan)],
      ((fun _ => first_loan_heuristic) : PyHeuristic) 0 [(⟨"A", 100, 0, 50, 1, 0, 0⟩ : Loan)]
        LoanConfig.DAYS_PER_MONTH = .ok (some l) :=
  ⟨List.mem_cons_self _ _, by decide, by decide,
   C5_heuristics_return_member _ (List.mem_cons_self _ _) 0 _ (by decide) (by decide)⟩

/-! ## Unfolding equation for the day-stepping loop -/

/-- Every month has at most 31 days. -/
theorem daysInMonth_le (y m : Nat) : daysInMonth y m ≤ 31 := by
  unfold daysInMonth
  split_ifs <;> omega

/-- Every month has at least 28 days. -/
theorem daysInMonth_ge (y m : Nat) : 28 ≤ daysInMonth y m := by
  unfold daysInMonth
  split_ifs <;> omega

/-- Stepping one day forward strictly decreases the loop measure while the
simulation is below `MAX_YEAR`. -/
theorem dateMeasure_addOneDay (d : Date) (h : d.year < 3000) :
    PaymentDevice.dateMeasure d.addOneDay < PaymentDevice.dateMeasure d := by
  have h31 := daysInMonth_le d.year d.month
  unfold Date.addOneDay PaymentDevice.dateMeasure
  split_ifs with h1 h2 <;> dsimp only <;> omega

/-- A date whose measure is exhausted is at or beyond `MAX_YEAR`. -/
theorem dateMeasure_zero (d : Date) (h : PaymentDevice.dateMeasure d = 0) :
    ¬ d.year < PaymentDevice.MAX_YEAR := by
  unfold PaymentDevice.dateMeasure at h
  show ¬ d.year < 3000
  omega

/-- The day-stepping loop is insensitive to its fuel once the fuel covers the
date measure. -/
theorem untilAux_congr : ∀ (f1 f2 : Nat) (st : PaymentDevice) (d : Date),
    PaymentDevice.dateMeasure d ≤ f1 → PaymentDevice.dateMeasure d ≤ f2 →
    PaymentDevice.untilAux f1 st d = PaymentDevice.untilAux f2 st d := by
  intro f1
  induction f1 with
  | zero =>
    intro f2 st d h1 h2
    have hy := dateMeasure_zero d (Nat.le_zero.mp h1)
    cases f2 with
    | zero => rfl
    | succ k =>
      show (st, [], d) =
        if d.year < PaymentDevice.MAX_YEAR then
          if PaymentDevice.should_prune_plan st then
            ({ st with paymentPlan :=
                st.paymentPlan ++ [TraceEvent.pruneAt st.paymentStats.amountPaid] }, [], d)
          else
            let pr := PaymentDevice.make_payments_on_date st d
            if pr.2.isEmpty then PaymentDevice.untilAux k pr.1 d.addOneDay
            else (pr.1, pr.2, d.addOneDay)
        else (st, [], d)
      rw [if_neg hy]
  | succ n ih =>
    intro f2 st d h1 h2
    cases f2 with
    | zero =>
      have hy := dateMeasure_zero d (Nat.le_zero.mp h2)
      show (if d.year < PaymentDevice.MAX_YEAR then
          if PaymentDevice.should_prune_plan st then
            ({ st with paymentPlan :=
                st.paymentPlan ++ [TraceEvent.pruneAt st.paymentStats.amountPaid] }, [], d)
          else
            let pr := PaymentDevice.make_payments_on_date st d
            if pr.2.isEmpty then PaymentDevice.untilAux n pr.1 d.addOneDay
            else (pr.1, pr.2, d.addOneDay)
        else (st, [], d)) = (st, [], d)
      rw [if_neg hy]
    | succ k =>
      show (if d.year < PaymentDevice.MAX_YEAR then
          if PaymentDevice.should_prune_plan st then
            ({ st with paymentPlan :=
                st.paymentPlan ++ [TraceEvent.pruneAt st.paymentStats.amountPaid] }, [], d)
          else
            let pr := PaymentDevice.make_payments_on_date st d
            if pr.2.isEmpty then PaymentDevice.untilAux n pr.1 d.addOneDay
            else (pr.1, pr.2, d.addOneDay)
        else (st, [], d)) =
        (if d.year < PaymentDevice.MAX_YEAR then
          if PaymentDevice.should_prune_plan st then
            ({ st with paymentPlan :=
                st.paymentPlan ++ [TraceEvent.pruneAt st.paymentStats.amountPaid] }, [], d)
          else
            let pr := PaymentDevice.make_payments_on_date st d
            if pr.2.isEmpty then PaymentDevice.untilAux k pr.1 d.addOneDay
            else (pr.1, pr.2, d.addOneDay)
        else (st, [], d))
      by_cases hy : d.year < PaymentDevice.MAX_YEAR
      · rw [if_pos hy, if_pos hy]
        by_cases hp : PaymentDevice.should_prune_plan st
        · simp only [hp, if_true]
        · simp only [hp, Bool.false_eq_true, if_false]
          by_cases he : (PaymentDevice.make_payments_on_date st d).2.isEmpty
          · simp only [he, if_true]
            have hlt : PaymentDevice.dateMeasure d.addOneDay < PaymentDevice.dateMeasure d := by
              apply dateMeasure_addOneDay
              exact hy
            exact ih k _ d.addOneDay (by omega) (by omega)
          · simp only [he, Bool.false_eq_true, if_false]
      · rw [if_neg hy, if_neg hy]

/-- One-step unfolding of `_make_payments_until_loan_paid`: check the year
bound, check pruning, make the day's payments, advance one day, and loop while
no loan has been paid off. -/
theorem make_payments_until_loan_paid_eq (st : PaymentDevice) (d : Date) :
    PaymentDevice.make_payments_until_loan_paid st d =
      if d.year < PaymentDevice.MAX_YEAR then
        if PaymentDevice.should_prune_plan st then
          ({ st with paymentPlan :=
              st.paymentPlan ++ [TraceEvent.pruneAt st.paymentStats.amountPaid] }, [], d)
        else
          if (PaymentDevice.make_payments_on_date st d).2.isEmpty then
            PaymentDevice.make_payments_until_loan_paid
              (PaymentDevice.make_payments_on_date st d).1 d.addOneDay
          else ((PaymentDevice.make_payments_on_date st d).1,
                (PaymentDevice.make_payments_on_date st d).2, d.addOneDay)
      else (st, [], d) := by
  have key : ∀ fuel, PaymentDevice.dateMeasure d ≤ fuel →
      PaymentDevice.untilAux fuel st d =
        if d.year < PaymentDevice.MAX_YEAR then
          if PaymentDevice.should_prune_plan st then
            ({ st with paymentPlan :=
                st.paymentPlan ++ [TraceEvent.pruneAt st.paymentStats.amountPaid] }, [], d)
          else
            if (PaymentDevice.make_payments_on_date st d).2.isEmpty then
              PaymentDevice.make_payments_until_loan_paid
                (PaymentDevice.make_payments_on_date st d).1 d.addOneDay
            else ((PaymentDevice.make_payments_on_date st d).1,
                  (PaymentDevice.make_payments_on_date st d).2, d.addOneDay)
        else (st, [], d) := by
    intro fuel hf
    cases fuel with
    | zero =>
      have hy := dateMeasure_zero d (Nat.le_zero.mp hf)
      show (st, [], d) = _
      rw [if_neg hy]
    | succ n =>
      show (if d.year < PaymentDevice.MAX_YEAR then
          if PaymentDevice.should_prune_plan st then
            ({ st with paymentPlan :=
                st.paymentPlan ++ [TraceEvent.pruneAt st.paymentStats.amountPaid] }, [], d)
          else
            let pr := PaymentDevice.make_payments_on_date st d
            if pr.2.isEmpty then PaymentDevice.untilAux n pr.1 d.addOneDay
            else (pr.1, pr.2, d.addOneDay)
        else (st, [], d)) = _
      by_cases hy : d.year < PaymentDevice.MAX_YEAR
      · rw [if_pos hy, if_pos hy]
        by_cases hp : PaymentDevice.should_prune_plan st
        · simp only [hp, if_true]
        · simp only [hp, Bool.false_eq_true, if_false]
          by_cases he : (PaymentDevice.make_payments_on_date st d).2.isEmpty
          · simp only [he, if_true]
            have hlt : PaymentDevice.dateMeasure d.addOneDay < PaymentDevice.dateMeasure d := by
              apply dateMeasure_addOneDay
              exact hy
            exact untilAux_congr n _ _ d.addOneDay (by omega) (le_refl _)
          · simp only [he, Bool.false_eq_true, if_false]
      · rw [if_neg hy, if_neg hy]
  exact key (PaymentDevice.dateMeasure d) (le_refl _)

/-! ## Claim C1: strict pruning -/

/-- C1: `_should_prune_plan` prunes exactly when a reference best device
exists and the run's cumulative amount paid strictly exceeds the reference's
final amount paid; on a day where the two are equal the loop does not take
the pruning branch and keeps simulating (processes the day's payments and
advances to the next day). -/
theorem C1_pruning_strictly_exceeds (st : PaymentDevice) (d : Date) :
    (PaymentDevice.should_prune_plan st = true ↔
      ∃ b, st.bestAmountPaid = some b ∧ b < st.paymentStats.amountPaid) ∧
    (st.bestAmountPaid = some st.paymentStats.amountPaid →
      d.year < PaymentDevice.MAX_YEAR →
      PaymentDevice.make_payments_until_loan_paid st d =
        if (PaymentDevice.make_payments_on_date st d).2.isEmpty then
          PaymentDevice.make_payments_until_loan_paid
            (PaymentDevice.make_payments_on_date st d).1 d.addOneDay
        else ((PaymentDevice.make_payments_on_date st d).1,
              (PaymentDevice.make_payments_on_date st d).2, d.addOneDay)) := by
  have hiff : PaymentDevice.should_prune_plan st = true ↔
      ∃ b, st.bestAmountPaid = some b ∧ b < st.paymentStats.amountPaid := by
    unfold PaymentDevice.should_prune_plan
    cases hb : st.bestAmountPaid with
    | none =>
      simp
    | some b =>
      simp [decide_eq_true_eq]
  refine ⟨hiff, ?_⟩
  intro heq hy
  have hpr : PaymentDevice.should_prune_plan st = false := by
    rw [Bool.eq_false_iff]
    intro hc
    obtain ⟨b, hb, hlt⟩ := hiff.mp hc
    rw [heq] at hb
    cases hb
    exact lt_irrefl _ hlt
  rw [make_payments_until_loan_paid_eq, if_pos hy, hpr]
  simp only [Bool.false_eq_true, if_false]

/-- Witness for C1 at a concrete state whose cumulative amount paid equals the
reference's final amount paid. -/
theorem C1_pruning_strictly_exceeds_witness :
    ((PaymentDevice.init ⟨1980, 7, 15⟩ [(⟨"A", 50, 0, 100, 1, 0, 0⟩ : Loan)]
        (some 0)).bestAmountPaid =
      some (PaymentDevice.init ⟨1980, 7, 15⟩ [(⟨"A", 50, 0, 100, 1, 0, 0⟩ : Loan)]
        (some 0)).paymentStats.amountPaid) ∧
    ((⟨3, 1, 1⟩ : Date).year < PaymentDevice.MAX_YEAR) ∧
    (PaymentDevice.make_payments_until_loan_paid
        (PaymentDevice.init ⟨1980, 7, 15⟩ [(⟨"A", 50, 0, 100, 1, 0, 0⟩ : Loan)] (some 0))
        ⟨3, 1, 1⟩ =
      if (PaymentDevice.make_payments_on_date
            (PaymentDevice.init ⟨1980, 7, 15⟩ [(⟨"A", 50, 0, 100, 1, 0, 0⟩ : Loan)] (some 0))
            ⟨3, 1, 1⟩).2.isEmpty then
        PaymentDevice.make_payments_until_loan_paid
          (PaymentDevice.make_payments_on_date
            (PaymentDevice.init ⟨1980, 7, 15⟩ [(⟨"A", 50, 0, 100, 1, 0, 0⟩ : Loan)] (some 0))
            ⟨3, 1, 1⟩).1 (⟨3, 1, 1⟩ : Date).addOneDay
      else ((PaymentDevice.make_payments_on_date
              (PaymentDevice.init ⟨1980, 7, 15⟩ [(⟨"A", 50, 0, 100, 1, 0, 0⟩ : Loan)] (some 0))
              ⟨3, 1, 1⟩).1,
            (PaymentDevice.make_payments_on_date
              (PaymentDevice.init ⟨1980, 7, 15⟩ [(⟨"A", 50, 0, 100, 1, 0, 0⟩ : Loan)] (some 0))
              ⟨3, 1, 1⟩).2, (⟨3, 1, 1⟩ : Date).addOneDay)) :=
  ⟨by with_unfolding_all rfl, by decide,
   (C1_pruning_strictly_exceeds
      (PaymentDevice.init ⟨1980, 7, 15⟩ [(⟨"A", 50, 0, 100, 1, 0, 0⟩ : Loan)] (some 0))
      ⟨3, 1, 1⟩).2 (by with_unfolding_all rfl) (by decide)⟩

/-! ## Calendar facts used by the run-level invariants -/

/-- A loan record that is well-formed for simulation: positive balance,
nonnegative stored interest rate, nonnegative monthly payment. -/
def GoodLoan (l : Loan) : Prop :=
  0 < l.balance ∧ 0 ≤ l.interestRate ∧ 0 ≤ l.monthlyPayment

instance (l : Loan) : Decidable (GoodLoan l) := by
  unfold GoodLoan; infer_instance

/-- Stepping one day forward preserves date validity. -/
theorem addOneDay_valid (d : Date) (h : d.Valid) : d.addOneDay.Valid := by
  obtain ⟨h1, h2, h3, h4, h5⟩ := h
  unfold Date.addOneDay
  have g1 := daysInMonth_ge d.year (d.month + 1)
  have g2 := daysInMonth_ge (d.year + 1) 1
  split_ifs with ha hb <;> unfold Date.Valid <;> dsimp only <;> omega

/-- `leapYearsUpTo` is monotone. -/
theorem leapYearsUpTo_mono {m n : Nat} (h : m ≤ n) :
    leapYearsUpTo m ≤ leapYearsUpTo n := by
  unfold leapYearsUpTo
  induction n with
  | zero => simp [Nat.le_zero.mp h]
  | succ k ih =>
    rcases Nat.lt_or_ge m (k + 1) with hc | hc
    · have := ih (by omega)
      rw [List.range_succ, List.countP_append]
      omega
    · have : m = k + 1 := by omega
      subst this
      exact le_refl _

/-- One month of days separates consecutive `daysBeforeMonth` values. -/
theorem daysBeforeMonth_succ (y m : Nat) :
    daysBeforeMonth y (m + 2) = daysBeforeMonth y (m + 1) + daysInMonth y (m + 1) := by
  unfold daysBeforeMonth
  simp [List.range_succ]

/-- `daysBeforeMonth` is bounded by 31 days per month. -/
theorem daysBeforeMonth_le (y m : Nat) : daysBeforeMonth y m ≤ 31 * (m - 1) := by
  unfold daysBeforeMonth
  have key : ∀ n, ((List.range n).map (fun k => daysInMonth y (k + 1))).sum ≤ 31 * n := by
    intro n
    induction n with
    | zero => simp
    | succ k ih =>
      rw [List.range_succ]
      simp only [List.map_append, List.sum_append, List.map_cons, List.map_nil,
        List.sum_cons, List.sum_nil]
      have h31 := daysInMonth_le y (k + 1)
      omega
  exact key (m - 1)

/-- On a valid date at or after year 2, the one-month look-back spans a
nonnegative number of days. -/
theorem daysSinceLastPayment_nonneg (d : Date) (h : d.Valid) :
    0 ≤ daysSinceLastPayment d := by
  obtain ⟨h1, h2, h3, h4, h5⟩ := h
  unfold daysSinceLastPayment Date.subOneMonth
  rw [sub_nonneg]
  by_cases hm : d.month = 1
  · rw [if_pos hm]
    unfold Date.toOrdinal
    have hy : 2 ≤ d.year := h5
    have hleap : leapYearsUpTo (d.year - 1 - 1) ≤ leapYearsUpTo (d.year - 1) :=
      leapYearsUpTo_mono (by omega)
    have hbm : daysBeforeMonth (d.year - 1) 12 ≤ 31 * 11 := daysBeforeMonth_le _ 12
    have hbm1 : daysBeforeMonth d.year d.month = 0 := by
      rw [hm]
      unfold daysBeforeMonth
      simp
    dsimp only
    rw [hbm1]
    have hmin : min d.day (daysInMonth (d.year - 1) 12) ≤ d.day := min_le_left _ _
    push_cast
    omega
  · rw [if_neg hm]
    unfold Date.toOrdinal
    dsimp only
    have hm2 : 2 ≤ d.month := by omega
    have hbm : daysBeforeMonth d.year d.month =
        daysBeforeMonth d.year (d.month - 1) + daysInMonth d.year (d.month - 1) := by
      obtain ⟨j, hj⟩ : ∃ j, d.month = j + 2 := ⟨d.month - 2, by omega⟩
      rw [hj, show j + 2 - 1 = j + 1 from rfl]
      exact daysBeforeMonth_succ d.year j
    have hmin : min d.day (daysInMonth d.year (d.month - 1)) ≤ d.day := min_le_left _ _
    push_cast
    omega

/-! ## Invariants of a payment day -/

/-- `_make_loan_payment` changes only the loan's balance. -/
theorem make_loan_payment_fields (l : Loan) (days : ℚ) :
    (PaymentDevice.make_loan_payment l days).1.name = l.name ∧
    (PaymentDevice.make_loan_payment l days).1.interestRate = l.interestRate ∧
    (PaymentDevice.make_loan_payment l days).1.monthlyPayment = l.monthlyPayment ∧
    (PaymentDevice.make_loan_payment l days).1.paymentDay = l.paymentDay :=
  ⟨rfl, rfl, rfl, rfl⟩

/-- A payment made by `_make_loan_payment` on a well-formed loan over a
nonnegative accrual period is nonnegative. -/
theorem make_loan_payment_nonneg (l : Loan) (days : ℚ) (hd : 0 ≤ days)
    (hl : GoodLoan l) : 0 ≤ (PaymentDevice.make_loan_payment l days).2 := by
  obtain ⟨hb, hr, hm⟩ := hl
  have hi : 0 ≤ l.get_interest_accrued days := by
    unfold Loan.get_interest_accrued
    have h365 : (0 : ℚ) ≤ days / 365 := by positivity
    exact mul_nonneg (mul_nonneg hb.le hr) h365
  show 0 ≤ Loan.get_payment_amount _
  unfold Loan.get_payment_amount
  dsimp only
  split_ifs with hc
  · exact hm
  · linarith

/-- Invariants of one `_make_payments_on_date` pass over the working set:
lengths add up, remaining loans keep their name, rate and monthly payment,
and on well-formed loans over a nonnegative period the remaining loans stay
well-formed and every logged payment is nonnegative. -/
theorem payDueLoans_spec (days : ℚ) (day : Nat) : ∀ ls : List Loan,
    ((PaymentDevice.payDueLoans days day ls).1.length +
      (PaymentDevice.payDueLoans days day ls).2.1.length = ls.length) ∧
    (∀ l' ∈ (PaymentDevice.payDueLoans days day ls).1, ∃ l ∈ ls,
      l.name = l'.name ∧ l.interestRate = l'.interestRate ∧
      l.monthlyPayment = l'.monthlyPayment) ∧
    (0 ≤ days → (∀ l ∈ ls, GoodLoan l) →
      (∀ l' ∈ (PaymentDevice.payDueLoans days day ls).1, GoodLoan l') ∧
      (∀ p ∈ (PaymentDevice.payDueLoans days day ls).2.2, 0 ≤ p)) := by
  intro ls
  induction ls with
  | nil =>
    refine ⟨rfl, ?_, ?_⟩
    · intro l' hl'
      simp [PaymentDevice.payDueLoans] at hl'
    · intro _ _
      constructor
      · intro l' hl'
        simp [PaymentDevice.payDueLoans] at hl'
      · intro p hp
        simp [PaymentDevice.payDueLoans] at hp
  | cons l rest ih =>
    obtain ⟨ihlen, ihmem, ihgood⟩ := ih
    have hfields := make_loan_payment_fields l days
    by_cases hdue : l.paymentDay = day
    · by_cases hpaid : (PaymentDevice.make_loan_payment l days).1.balance ≤ 0
      · have hred : PaymentDevice.payDueLoans days day (l :: rest) =
            ((PaymentDevice.payDueLoans days day rest).1,
             (PaymentDevice.make_loan_payment l days).1 ::
               (PaymentDevice.payDueLoans days day rest).2.1,
             (PaymentDevice.make_loan_payment l days).2 ::
               (PaymentDevice.payDueLoans days day rest).2.2) := by
          simp only [PaymentDevice.payDueLoans, if_pos hdue, if_pos hpaid]
        rw [hred]
        refine ⟨by simp only [List.length_cons]; omega, ?_, ?_⟩
        · intro l' hl'
          obtain ⟨l0, hl0, he⟩ := ihmem l' hl'
          exact ⟨l0, List.mem_cons_of_mem _ hl0, he⟩
        · intro hdays hgood
          have hrest : ∀ x ∈ rest, GoodLoan x := fun x hx => hgood x (List.mem_cons_of_mem _ hx)
          obtain ⟨hg, hp⟩ := ihgood hdays hrest
          refine ⟨hg, ?_⟩
          intro p hp'
          rcases List.mem_cons.mp hp' with rfl | hmem
          · exact make_loan_payment_nonneg l days hdays (hgood l (List.mem_cons_self _ _))
          · exact hp p hmem
      · have hred : PaymentDevice.payDueLoans days day (l :: rest) =
            ((PaymentDevice.make_loan_payment l days).1 ::
               (PaymentDevice.payDueLoans days day rest).1,
             (PaymentDevice.payDueLoans days day rest).2.1,
             (PaymentDevice.make_loan_payment l days).2 ::
               (PaymentDevice.payDueLoans days day rest).2.2) := by
          simp only [PaymentDevice.payDueLoans, if_pos hdue, if_neg hpaid]
        rw [hred]
        refine ⟨by simp only [List.length_cons]; omega, ?_, ?_⟩
        · intro l' hl'
          rcases List.mem_cons.mp hl' with rfl | hmem
          · exact ⟨l, List.mem_cons_self _ _, hfields.1.symm, hfields.2.1.symm, hfields.2.2.1.symm⟩
          · obtain ⟨l0, hl0, he⟩ := ihmem l' hmem
            exact ⟨l0, List.mem_cons_of_mem _ hl0, he⟩
        · intro hdays hgood
          have hrest : ∀ x ∈ rest, GoodLoan x := fun x hx => hgood x (List.mem_cons_of_mem _ hx)
          obtain ⟨hg, hp⟩ := ihgood hdays hrest
          constructor
          · intro l' hl'
            rcases List.mem_cons.mp hl' with rfl | hmem
            · refine ⟨lt_of_not_le hpaid, ?_, ?_⟩
              · rw [hfields.2.1]
                exact (hgood l (List.mem_cons_self _ _)).2.1
              · rw [hfields.2.2.1]
                exact (hgood l (List.mem_cons_self _ _)).2.2
            · exact hg l' hmem
          · intro p hp'
            rcases List.mem_cons.mp hp' with rfl | hmem
            · exact make_loan_payment_nonneg l days hdays (hgood l (List.mem_cons_self _ _))
            · exact hp p hmem
    · have hred : PaymentDevice.payDueLoans days day (l :: rest) =
          (l :: (PaymentDevice.payDueLoans days day rest).1,
           (PaymentDevice.payDueLoans days day rest).2.1,
           (PaymentDevice.payDueLoans days day rest).2.2) := by
        simp only [PaymentDevice.payDueLoans, if_neg hdue]
      rw [hred]
      refine ⟨by simp only [List.length_cons]; omega, ?_, ?_⟩
      · intro l' hl'
        rcases List.mem_cons.mp hl' with rfl | hmem
        · exact ⟨l', List.mem_cons_self _ _, rfl, rfl, rfl⟩
        · obtain ⟨l0, hl0, he⟩ := ihmem l' hmem
          exact ⟨l0, List.mem_cons_of_mem _ hl0, he⟩
      · intro hdays hgood
        have hrest : ∀ x ∈ rest, GoodLoan x := fun x hx => hgood x (List.mem_cons_of_mem _ hx)
        obtain ⟨hg, hp⟩ := ihgood hdays hrest
        constructor
        · intro l' hl'
          rcases List.mem_cons.mp hl' with rfl | hmem
          · exact hgood l' (List.mem_cons_self _ _)
          · exact hg l' hmem
        · exact hp

/-- Two engine states agreeing on everything `_collect_payment_stats` sets
(and on the run-constant fields). -/
def SameShell (a b : PaymentDevice) : Prop :=
  b.paymentStats.finishDate = a.paymentStats.finishDate ∧
  b.paymentStats.monthsPaid = a.paymentStats.monthsPaid ∧
  b.paymentStats.finishAge = a.paymentStats.finishAge ∧
  b.paymentStats.startDate = a.paymentStats.startDate ∧
  b.paymentStats.dateOfBirth = a.paymentStats.dateOfBirth ∧
  b.bestAmountPaid = a.bestAmountPaid ∧
  b.originalLoans = a.originalLoans

/-- `SameShell` is reflexive. -/
theorem SameShell_refl (a : PaymentDevice) : SameShell a a :=
  ⟨rfl, rfl, rfl, rfl, rfl, rfl, rfl⟩

/-- `SameShell` is transitive. -/
theorem SameShell_trans {a b c : PaymentDevice} (h1 : SameShell a b)
    (h2 : SameShell b c) : SameShell a c := by
  obtain ⟨x1, x2, x3, x4, x5, x6, x7⟩ := h1
  obtain ⟨y1, y2, y3, y4, y5, y6, y7⟩ := h2
  exact ⟨y1.trans x1, y2.trans x2, y3.trans x3, y4.trans x4, y5.trans x5,
    y6.trans x6, y7.trans x7⟩

/-- Invariants of `_make_payments_on_date`: lengths add up, the statistics
shell is untouched, remaining loans keep name and monthly payment, and on a
valid date with a well-formed working set the remaining set stays well-formed
while the payment log grows by nonnegative entries summed into `amountPaid`. -/
theorem make_payments_on_date_spec (st : PaymentDevice) (d : Date) :
    ((PaymentDevice.make_payments_on_date st d).1.loans.length +
      (PaymentDevice.make_payments_on_date st d).2.length = st.loans.length) ∧
    SameShell st (PaymentDevice.make_payments_on_date st d).1 ∧
    (∀ l' ∈ (PaymentDevice.make_payments_on_date st d).1.loans, ∃ l ∈ st.loans,
      l.name = l'.name ∧ l.monthlyPayment ≤ l'.monthlyPayment) ∧
    (d.Valid → (∀ l ∈ st.loans, GoodLoan l) →
      (∀ l' ∈ (PaymentDevice.make_payments_on_date st d).1.loans, GoodLoan l') ∧
      ∃ ps : List ℚ,
        (PaymentDevice.make_payments_on_date st d).1.payments = st.payments ++ ps ∧
        (∀ p ∈ ps, 0 ≤ p) ∧
        (PaymentDevice.make_payments_on_date st d).1.paymentStats.amountPaid =
          st.paymentStats.amountPaid + ps.sum) := by
  obtain ⟨hlen, hmem, hgood⟩ :=
    payDueLoans_spec ((daysSinceLastPayment d : ℚ)) d.day st.loans
  refine ⟨hlen, SameShell_refl _, ?_, ?_⟩
  · intro l' hl'
    obtain ⟨l, hl, hn, _, hm⟩ := hmem l' hl'
    exact ⟨l, hl, hn, le_of_eq hm⟩
  · intro hv hG
    have hdays : (0 : ℚ) ≤ ((daysSinceLastPayment d : ℚ)) := by
      have := daysSinceLastPayment_nonneg d hv
      exact_mod_cast this
    obtain ⟨hg, hp⟩ := hgood hdays hG
    exact ⟨hg, (PaymentDevice.payDueLoans _ d.day st.loans).2.2, rfl, hp, rfl⟩

/-- Invariants of the day-stepping loop `_make_payments_until_loan_paid` (at
any fuel): lengths add up, the statistics shell is untouched, remaining loans
keep their names and never see their monthly payment decrease, and on a valid
date with a well-formed working set the working set stays well-formed, the
returned date is valid, and the payment log grows by nonnegative entries
summed into `amountPaid`. -/
theorem untilAux_spec : ∀ (fuel : Nat) (st : PaymentDevice) (d : Date),
    ((PaymentDevice.untilAux fuel st d).1.loans.length +
      (PaymentDevice.untilAux fuel st d).2.1.length = st.loans.length) ∧
    SameShell st (PaymentDevice.untilAux fuel st d).1 ∧
    (∀ l' ∈ (PaymentDevice.untilAux fuel st d).1.loans, ∃ l ∈ st.loans,
      l.name = l'.name ∧ l.monthlyPayment ≤ l'.monthlyPayment) ∧
    (d.Valid → (∀ l ∈ st.loans, GoodLoan l) →
      (∀ l' ∈ (PaymentDevice.untilAux fuel st d).1.loans, GoodLoan l') ∧
      (PaymentDevice.untilAux fuel st d).2.2.Valid ∧
      ∃ ps : List ℚ,
        (PaymentDevice.untilAux fuel st d).1.payments = st.payments ++ ps ∧
        (∀ p ∈ ps, 0 ≤ p) ∧
        (PaymentDevice.untilAux fuel st d).1.paymentStats.amountPaid =
          st.paymentStats.amountPaid + ps.sum) := by
  intro fuel
  induction fuel with
  | zero =>
    intro st d
    refine ⟨?_, SameShell_refl _, ?_, ?_⟩
    · show st.loans.length + ([] : List Loan).length = st.loans.length
      simp
    · intro l' hl'
      exact ⟨l', hl', rfl, le_refl _⟩
    · intro hv hG
      refine ⟨hG, hv, [], (List.append_nil _).symm, by simp, ?_⟩
      show st.paymentStats.amountPaid = st.paymentStats.amountPaid + ([] : List ℚ).sum
      simp
  | succ n ih =>
    intro st d
    have hstep : PaymentDevice.untilAux (n + 1) st d =
        if d.year < PaymentDevice.MAX_YEAR then
          if PaymentDevice.should_prune_plan st then
            ({ st with paymentPlan :=
                st.paymentPlan ++ [TraceEvent.pruneAt st.paymentStats.amountPaid] }, [], d)
          else
            let pr := PaymentDevice.make_payments_on_date st d
            if pr.2.isEmpty then PaymentDevice.untilAux n pr.1 d.addOneDay
            else (pr.1, pr.2, d.addOneDay)
        else (st, [], d) := rfl
    rw [hstep]
    by_cases hy : d.year < PaymentDevice.MAX_YEAR
    · rw [if_pos hy]
      by_cases hp : PaymentDevice.should_prune_plan st
      · simp only [hp, if_true]
        refine ⟨by simp, ⟨rfl, rfl, rfl, rfl, rfl, rfl, rfl⟩, ?_, ?_⟩
        · intro l' hl'
          exact ⟨l', hl', rfl, le_refl _⟩
        · intro hv hG
          exact ⟨hG, hv, [], (List.append_nil _).symm, by simp, by simp⟩
      · simp only [hp, Bool.false_eq_true, if_false]
        obtain ⟨slen, sshell, smple, sgood⟩ := make_payments_on_date_spec st d
        by_cases he : (PaymentDevice.make_payments_on_date st d).2.isEmpty
        · simp only [he, if_true]
          obtain ⟨ilen, ishell, imple, igood⟩ :=
            ih (PaymentDevice.make_payments_on_date st d).1 d.addOneDay
          have hpaid0 : (PaymentDevice.make_payments_on_date st d).2.length = 0 := by
            rw [List.isEmpty_iff] at he
            rw [he]
            rfl
          refine ⟨by omega, SameShell_trans sshell ishell, ?_, ?_⟩
          · intro l' hl'
            obtain ⟨l1, hl1, hn1, hm1⟩ := imple l' hl'
            obtain ⟨l0, hl0, hn0, hm0⟩ := smple l1 hl1
            exact ⟨l0, hl0, hn0.trans hn1, hm0.trans hm1⟩
          · intro hv hG
            obtain ⟨hg1, ps1, hps1, hps1n, hps1a⟩ := sgood hv hG
            obtain ⟨hg2, hv2, ps2, hps2, hps2n, hps2a⟩ :=
              igood (addOneDay_valid d hv) hg1
            refine ⟨hg2, hv2, ps1 ++ ps2, ?_, ?_, ?_⟩
            · rw [hps2, hps1, List.append_assoc]
            · intro p hp'
              rcases List.mem_append.mp hp' with h | h
              · exact hps1n p h
              · exact hps2n p h
            · rw [hps2a, hps1a, List.sum_append]
              ring
        · simp only [he, Bool.false_eq_true, if_false]
          refine ⟨slen, sshell, smple, ?_⟩
          intro hv hG
          obtain ⟨hg1, ps1, hps1, hps1n, hps1a⟩ := sgood hv hG
          exact ⟨hg1, addOneDay_valid d hv, ps1, hps1, hps1n, hps1a⟩
    · rw [if_neg hy]
      refine ⟨by simp, SameShell_refl _, ?_, ?_⟩
      · intro l' hl'
        exact ⟨l', hl', rfl, le_refl _⟩
      · intro hv hG
        exact ⟨hG, hv, [], (List.append_nil _).symm, by simp, by simp⟩

/-! ## Invariants of paid-loan handling -/

/-- State relation established by `_handle_paid_loans`: the working set keeps
its size, every loan keeps its name, balance and rate while its monthly
payment may only grow, and statistics, payment log and run-constant fields
are untouched. -/
def HandleRel (a b : PaymentDevice) : Prop :=
  b.loans.length = a.loans.length ∧
  (∀ l' ∈ b.loans, ∃ l ∈ a.loans, l.name = l'.name ∧ l.balance = l'.balance ∧
    l.interestRate = l'.interestRate ∧ l.monthlyPayment ≤ l'.monthlyPayment) ∧
  b.paymentStats = a.paymentStats ∧
  b.payments = a.payments ∧
  b.bestAmountPaid = a.bestAmountPaid ∧
  b.originalLoans = a.originalLoans

/-- `HandleRel` is reflexive. -/
theorem HandleRel_refl (a : PaymentDevice) : HandleRel a a :=
  ⟨rfl, fun l' hl' => ⟨l', hl', rfl, rfl, rfl, le_refl _⟩, rfl, rfl, rfl, rfl⟩

/-- `HandleRel` is transitive. -/
theorem HandleRel_trans {a b c : PaymentDevice} (h1 : HandleRel a b)
    (h2 : HandleRel b c) : HandleRel a c := by
  obtain ⟨x1, x2, x3, x4, x5, x6⟩ := h1
  obtain ⟨y1, y2, y3, y4, y5, y6⟩ := h2
  refine ⟨y1.trans x1, ?_, y3.trans x3, y4.trans x4, y5.trans x5, y6.trans x6⟩
  intro l' hl'
  obtain ⟨l1, hl1, hn1, hb1, hr1, hm1⟩ := y2 l' hl'
  obtain ⟨l0, hl0, hn0, hb0, hr0, hm0⟩ := x2 l1 hl1
  exact ⟨l0, hl0, hn0.trans hn1, hb0.trans hb1, hr0.trans hr1, hm0.trans hm1⟩

/-- Per-dollar reallocation keeps the working set's size and only ever raises
monthly payments. -/
theorem allocate_dollars_spec (decider : Decider) : ∀ (n : Nat) (loans out : List Loan),
    PaymentDevice.allocate_dollars decider n loans = .ok out →
    out.length = loans.length ∧
    (∀ l' ∈ out, ∃ l ∈ loans, l.name = l'.name ∧ l.balance = l'.balance ∧
      l.interestRate = l'.interestRate ∧ l.monthlyPayment ≤ l'.monthlyPayment) := by
  intro n
  induction n with
  | zero =>
    intro loans out h
    cases h
    exact ⟨rfl, fun l' hl' => ⟨l', hl', rfl, rfl, rfl, le_refl _⟩⟩
  | succ k ih =>
    intro loans out h
    rw [show PaymentDevice.allocate_dollars decider (k + 1) loans =
        (if (PaymentDevice.getEligibleLoans loans).isEmpty then
          PaymentDevice.allocate_dollars decider k loans
        else
          match decider (PaymentDevice.getEligibleLoans loans) LoanConfig.DAYS_PER_MONTH with
          | .error e => .error e
          | .ok none => .error .attributeError
          | .ok (some l) =>
            PaymentDevice.allocate_dollars decider k
              (loans.map (fun x =>
                if x.name = l.name then { x with monthlyPayment := x.monthlyPayment + 1 }
                else x))) from rfl] at h
    by_cases he : (PaymentDevice.getEligibleLoans loans).isEmpty
    · rw [if_pos he] at h
      exact ih loans out h
    · rw [if_neg he] at h
      cases hdec : decider (PaymentDevice.getEligibleLoans loans) LoanConfig.DAYS_PER_MONTH with
      | error e => rw [hdec] at h; cases h
      | ok o =>
        cases o with
        | none => rw [hdec] at h; cases h
        | some l =>
          rw [hdec] at h
          obtain ⟨hlen, hrel⟩ := ih _ out h
          constructor
          · rw [hlen, List.length_map]
          · intro l' hl'
            obtain ⟨l1, hl1, hn1, hb1, hr1, hm1⟩ := hrel l' hl'
            obtain ⟨l0, hl0, hmap⟩ := List.mem_map.mp hl1
            by_cases hname : l0.name = l.name
            · rw [if_pos hname] at hmap
              refine ⟨l0, hl0, ?_, ?_, ?_, ?_⟩
              · rw [← hn1, ← hmap]
              · rw [← hb1, ← hmap]
              · rw [← hr1, ← hmap]
              · rw [← hmap] at hm1
                dsimp only at hm1
                linarith
            · rw [if_neg hname] at hmap
              rw [hmap] at hl0
              exact ⟨l1, hl0, hn1, hb1, hr1, hm1⟩

/-- `_handle_paid_loan` establishes `HandleRel` when it succeeds. -/
theorem handle_paid_loan_spec (decider : Decider) (st : PaymentDevice) (paidLoan : Loan)
    (timeSoFar : RelDelta) (out : PaymentDevice)
    (h : PaymentDevice.handle_paid_loan decider st paidLoan timeSoFar = .ok out) :
    HandleRel st out := by
  unfold PaymentDevice.handle_paid_loan at h
  dsimp only at h
  cases halloc : PaymentDevice.allocate_dollars decider
      (pyInt paidLoan.monthlyPayment).toNat st.loans with
  | error e =>
    rw [halloc] at h
    cases h
  | ok newLoans =>
    rw [halloc] at h
    rw [exceptOkBind] at h
    cases h
    obtain ⟨hlen, hrel⟩ := allocate_dollars_spec decider _ _ _ halloc
    exact ⟨hlen, hrel, rfl, rfl, rfl, rfl⟩

/-- Folding `_handle_paid_loan` over the paid loans establishes `HandleRel`
when it succeeds. -/
theorem foldlM_handle_spec (decider : Decider) (timeSoFar : RelDelta) :
    ∀ (pls : List Loan) (st st' : PaymentDevice),
    pls.foldlM (fun s l => PaymentDevice.handle_paid_loan decider s l timeSoFar) st =
      .ok st' →
    HandleRel st st' := by
  intro pls
  induction pls with
  | nil =>
    intro st st' h
    cases h
    exact HandleRel_refl _
  | cons p rest ih =>
    intro st st' h
    rw [List.foldlM_cons] at h
    cases hh : PaymentDevice.handle_paid_loan decider st p timeSoFar with
    | error e =>
      rw [hh] at h
      cases h
    | ok st1 =>
      rw [hh, exceptOkBind] at h
      exact (handle_paid_loan_spec decider st p timeSoFar st1 hh) |> fun hx => HandleRel_trans hx (ih st1 st' h)

/-- `_handle_paid_loans` establishes `HandleRel` when it succeeds and reports
success exactly when some loan was paid. -/
theorem handle_paid_loans_spec (decider : Decider) (st : PaymentDevice)
    (paidLoans : List Loan) (currentDate : Date) (st' : PaymentDevice) (b : Bool)
    (h : PaymentDevice.handle_paid_loans decider st paidLoans currentDate = .ok (st', b)) :
    HandleRel st st' ∧ (b = true ↔ ¬paidLoans.isEmpty) := by
  unfold PaymentDevice.handle_paid_loans at h
  dsimp only at h
  by_cases he : paidLoans.isEmpty
  · rw [if_pos he] at h
    cases h
    refine ⟨⟨rfl, fun l' hl' => ⟨l', hl', rfl, rfl, rfl, le_refl _⟩, rfl, rfl, rfl, rfl⟩, ?_⟩
    simp [he]
  · rw [if_neg he] at h
    cases hf : paidLoans.foldlM
        (fun s l => PaymentDevice.handle_paid_loan decider s l
          (relativedelta currentDate (st.paymentStats.startDate.getD ⟨1, 1, 1⟩))) st with
    | error e =>
      rw [hf] at h
      cases h
    | ok stf =>
      rw [hf, exceptOkBind] at h
      cases h
      refine ⟨foldlM_handle_spec decider _ paidLoans st _ hf, ?_⟩
      simp [he]

/-- `_collect_payment_stats` touches neither the working set, the payment log
nor the cumulative amount paid, and sets the finish date. -/
theorem collect_payment_stats_spec (st : PaymentDevice) (d : Date) (out : PaymentDevice)
    (h : PaymentDevice.collect_payment_stats st d = .ok out) :
    out.loans = st.loans ∧ out.payments = st.payments ∧
    out.paymentStats.amountPaid = st.paymentStats.amountPaid ∧
    out.paymentStats.finishDate = some d := by
  unfold PaymentDevice.collect_payment_stats at h
  dsimp only at h
  cases hage : get_age_on_date st.paymentStats.dateOfBirth d with
  | error e =>
    rw [hage] at h
    cases h
  | ok age =>
    rw [hage, exceptOkBind] at h
    cases h
    exact ⟨rfl, rfl, rfl, rfl⟩

/-- The invariants of `untilAux`, restated for
`_make_payments_until_loan_paid`. -/
theorem make_payments_until_spec (st : PaymentDevice) (d : Date) :
    ((PaymentDevice.make_payments_until_loan_paid st d).1.loans.length +
      (PaymentDevice.make_payments_until_loan_paid st d).2.1.length = st.loans.length) ∧
    SameShell st (PaymentDevice.make_payments_until_loan_paid st d).1 ∧
    (∀ l' ∈ (PaymentDevice.make_payments_until_loan_paid st d).1.loans, ∃ l ∈ st.loans,
      l.name = l'.name ∧ l.monthlyPayment ≤ l'.monthlyPayment) ∧
    (d.Valid → (∀ l ∈ st.loans, GoodLoan l) →
      (∀ l' ∈ (PaymentDevice.make_payments_until_loan_paid st d).1.loans, GoodLoan l') ∧
      (PaymentDevice.make_payments_until_loan_paid st d).2.2.Valid ∧
      ∃ ps : List ℚ,
        (PaymentDevice.make_payments_until_loan_paid st d).1.payments =
          st.payments ++ ps ∧
        (∀ p ∈ ps, 0 ≤ p) ∧
        (PaymentDevice.make_payments_until_loan_paid st d).1.paymentStats.amountPaid =
          st.paymentStats.amountPaid + ps.sum) :=
  untilAux_spec (PaymentDevice.dateMeasure d) st d

/-- Run-level invariants of the `pay_loans` loop: given sufficient fuel, a
valid current date, a well-formed working set, and a payment log that is
nonnegative and sums to the cumulative amount paid, a run that returns without
raising reports success exactly when the working set has been emptied; on
failure the finish statistics are untouched, on success the finish date is
set; the amount-paid/payment-log invariant is preserved and the cumulative
amount paid never decreases. -/
theorem payLoansAux_spec (decider : Decider) : ∀ (fuel : Nat) (st : PaymentDevice) (d : Date),
    st.loans.length < fuel →
    d.Valid →
    (∀ l ∈ st.loans, GoodLoan l) →
    st.paymentStats.amountPaid = st.payments.sum →
    (∀ p ∈ st.payments, 0 ≤ p) →
    ∀ (b : Bool) (st' : PaymentDevice),
      PaymentDevice.payLoansAux decider fuel st d = .ok (b, st') →
      (b = true ↔ st'.loans = []) ∧
      (b = false → st'.paymentStats.finishDate = st.paymentStats.finishDate ∧
        st'.paymentStats.monthsPaid = st.paymentStats.monthsPaid ∧
        st'.paymentStats.finishAge = st.paymentStats.finishAge) ∧
      (b = true → ∃ fin, st'.paymentStats.finishDate = some fin) ∧
      st'.paymentStats.amountPaid = st'.payments.sum ∧
      (∀ p ∈ st'.payments, 0 ≤ p) ∧
      st.paymentStats.amountPaid ≤ st'.paymentStats.amountPaid := by
  intro fuel
  induction fuel with
  | zero =>
    intro st d hf
    exact absurd hf (Nat.not_lt_zero _)
  | succ k ih =>
    intro st d hf hv hG hsum hnn b st' h
    have hbody : PaymentDevice.payLoansAux decider (k + 1) st d =
        (if st.loans.isEmpty then do
          let stc ← PaymentDevice.collect_payment_stats st d
          pure (true, stc)
        else
          let res := PaymentDevice.make_payments_until_loan_paid st d
          match PaymentDevice.handle_paid_loans decider res.1 res.2.1 res.2.2 with
          | .error e => .error e
          | .ok (st'', false) => .ok (false, st'')
          | .ok (st'', true) => PaymentDevice.payLoansAux decider k st'' res.2.2) := rfl
    rw [hbody] at h
    by_cases he : st.loans.isEmpty
    · rw [if_pos he] at h
      cases hcol : PaymentDevice.collect_payment_stats st d with
      | error e =>
        rw [hcol] at h
        cases h
      | ok stc =>
        rw [hcol, exceptOkBind] at h
        cases h
        obtain ⟨hcl, hcp, hca, hcf⟩ := collect_payment_stats_spec st d _ hcol
        refine ⟨?_, ?_, ?_, ?_, ?_, ?_⟩
        · simp [hcl, List.isEmpty_iff.mp he]
        · intro hb
          cases hb
        · intro _
          exact ⟨d, hcf⟩
        · rw [hca, hcp]
          exact hsum
        · rw [hcp]
          exact hnn
        · rw [hca]
    · rw [if_neg he] at h
      dsimp only at h
      obtain ⟨ulen, ushell, umple, ugood⟩ := make_payments_until_spec st d
      obtain ⟨hg1, hv1, ps1, hps1, hps1n, hps1a⟩ := ugood hv hG
      cases hh : PaymentDevice.handle_paid_loans decider
          (PaymentDevice.make_payments_until_loan_paid st d).1
          (PaymentDevice.make_payments_until_loan_paid st d).2.1
          (PaymentDevice.make_payments_until_loan_paid st d).2.2 with
      | error e =>
        rw [hh] at h
        cases h
      | ok pair =>
        obtain ⟨st2, b2⟩ := pair
        obtain ⟨hrel, hbiff⟩ := handle_paid_loans_spec decider _ _ _ _ _ hh
        obtain ⟨hrlen, hrmem, hrstats, hrpay, hrbest, hrorig⟩ := hrel
        have hsum2 : st2.paymentStats.amountPaid = st2.payments.sum := by
          rw [hrstats, hrpay, hps1a, hps1, List.sum_append, hsum]
        have hnn2 : ∀ p ∈ st2.payments, 0 ≤ p := by
          rw [hrpay, hps1]
          intro p hp
          rcases List.mem_append.mp hp with h0 | h0
          · exact hnn p h0
          · exact hps1n p h0
        have hmono2 : st.paymentStats.amountPaid ≤ st2.paymentStats.amountPaid := by
          rw [hrstats, hps1a]
          have : 0 ≤ ps1.sum := List.sum_nonneg hps1n
          linarith
        have hshell2 : st2.paymentStats.finishDate = st.paymentStats.finishDate ∧
            st2.paymentStats.monthsPaid = st.paymentStats.monthsPaid ∧
            st2.paymentStats.finishAge = st.paymentStats.finishAge := by
          rw [hrstats]
          exact ⟨ushell.1, ushell.2.1, ushell.2.2.1⟩
        cases b2 with
        | false =>
          rw [hh] at h
          have hbeq : b = false ∧ st' = st2 := by
            injection h with hpair
            injection hpair with h1 h2
            exact ⟨h1.symm, h2.symm⟩
          obtain ⟨hb0, hst0⟩ := hbeq
          subst hb0
          subst hst0
          have hne2 : st'.loans ≠ [] := by
            have hpe : (PaymentDevice.make_payments_until_loan_paid st d).2.1.isEmpty := by
              by_contra hc
              exact (by simp : ¬(false = true)) (hbiff.mpr hc)
            have hp0 : (PaymentDevice.make_payments_until_loan_paid st d).2.1.length = 0 := by
              rw [List.isEmpty_iff.mp hpe]
              rfl
            have hlz : st.loans.length ≠ 0 := by
              intro hz
              exact he (List.isEmpty_iff.mpr (List.length_eq_zero.mp hz))
            intro hz
            rw [hz] at hrlen
            simp at hrlen
            omega
          refine ⟨by simp [hne2], fun _ => hshell2, ?_, hsum2, hnn2, hmono2⟩
          intro hb
          cases hb
        | true =>
          rw [hh] at h
          have hne : ¬(PaymentDevice.make_payments_until_loan_paid st d).2.1.isEmpty :=
            hbiff.mp rfl
          have hplen : 1 ≤ (PaymentDevice.make_payments_until_loan_paid st d).2.1.length := by
            rcases hx : (PaymentDevice.make_payments_until_loan_paid st d).2.1 with _ | ⟨a, t⟩
            · rw [hx] at hne
              simp at hne
            · simp
          have hlz : st.loans.length ≠ 0 := by
            intro hz
            exact he (List.isEmpty_iff.mpr (List.length_eq_zero.mp hz))
          have hf2 : st2.loans.length < k := by
            rw [hrlen]
            omega
          have hG2 : ∀ l ∈ st2.loans, GoodLoan l := by
            intro l' hl'
            obtain ⟨l1, hl1, _, hb1, hr1, hm1⟩ := hrmem l' hl'
            obtain ⟨g1, g2, g3⟩ := hg1 l1 hl1
            exact ⟨hb1 ▸ g1, hr1 ▸ g2, le_trans g3 hm1⟩
          obtain ⟨c1, c2, c3, c4, c5, c6⟩ :=
            ih st2 (PaymentDevice.make_payments_until_loan_paid st d).2.2
              hf2 hv1 hG2 hsum2 hnn2 b st' h
          refine ⟨c1, ?_, c3, c4, c5, le_trans hmono2 c6⟩
          intro hb
          obtain ⟨d1, d2, d3⟩ := c2 hb
          exact ⟨d1.trans hshell2.1, d2.trans hshell2.2.1, d3.trans hshell2.2.2⟩

/-! ## Claims C2, C6 and C7 -/

/-- C2: `pay_loans` fails immediately when no loan has a positive balance;
otherwise a run that returns without raising succeeds exactly when the working
set has been emptied (pruned and timed-out runs report failure with loans
outstanding), and the finish statistics (finish date, months paid, age) are
set only on a successful run — on failure they keep their initial values. -/
theorem C2_pay_loans_success_semantics (decider : Decider) (dob : Date)
    (loans : List Loan) (best : Option ℚ) (startDate : Date)
    (hv : startDate.Valid)
    (hgood : ∀ l ∈ loans, 0 ≤ l.interestRate ∧ 0 ≤ l.monthlyPayment) :
    ((loans.filter (fun l => 0 < l.balance)).isEmpty →
      ∃ st', PaymentDevice.pay_loans decider (PaymentDevice.init dob loans best)
          startDate = .ok (false, st') ∧
        st'.paymentStats.finishDate = none ∧ st'.paymentStats.monthsPaid = 0 ∧
        st'.paymentStats.finishAge = 0) ∧
    (∀ (b : Bool) (st' : PaymentDevice),
      PaymentDevice.pay_loans decider (PaymentDevice.init dob loans best) startDate =
        .ok (b, st') →
      (¬(loans.filter (fun l => 0 < l.balance)).isEmpty →
        (b = true ↔ st'.loans = [])) ∧
      (b = false → st'.paymentStats.finishDate = none ∧
        st'.paymentStats.monthsPaid = 0 ∧ st'.paymentStats.finishAge = 0) ∧
      (b = true → ∃ fin, st'.paymentStats.finishDate = some fin)) := by
  have horig : (PaymentDevice.init dob loans best).originalLoans = loans := rfl
  constructor
  · intro hempty
    refine ⟨{ PaymentDevice.init dob loans best with
        loans := loans.filter (fun l => 0 < l.balance),
        paymentStats := { (PaymentDevice.init dob loans best).paymentStats with
          startDate := some startDate } }, ?_, rfl, rfl, rfl⟩
    unfold PaymentDevice.pay_loans
    dsimp only
    rw [horig, if_pos hempty]
  · intro b st' h
    unfold PaymentDevice.pay_loans at h
    dsimp only at h
    rw [horig] at h
    by_cases hempty : (loans.filter (fun l => 0 < l.balance)).isEmpty
    · rw [if_pos hempty] at h
      injection h with hpair
      injection hpair with h1 h2
      refine ⟨fun hc => absurd hempty hc, ?_, ?_⟩
      · intro _
        rw [← h2]
        exact ⟨rfl, rfl, rfl⟩
      · intro hb
        rw [hb] at h1
        cases h1
    · rw [if_neg hempty] at h
      have hlen : (loans.filter (fun l => 0 < l.balance)).length <
          (loans.filter (fun l => 0 < l.balance)).length + 1 := Nat.lt_succ_self _
      have hGf : ∀ l ∈ loans.filter (fun l => 0 < l.balance), GoodLoan l := by
        intro l hl
        have hb' := List.of_mem_filter hl
        have hmem := List.mem_of_mem_filter hl
        exact ⟨of_decide_eq_true hb', (hgood l hmem).1, (hgood l hmem).2⟩
      obtain ⟨c1, c2, c3, c4, c5, c6⟩ :=
        payLoansAux_spec decider _ _ _ hlen hv hGf rfl
          (by intro p hp; cases hp) b st' h
      refine ⟨fun _ => c1, ?_, c3⟩
      intro hb
      obtain ⟨d1, d2, d3⟩ := c2 hb
      exact ⟨d1, d2, d3⟩

/-- Witness for C2 at a concrete one-loan run that pays off on the first
simulated day. -/
theorem C2_pay_loans_success_semantics_witness :
    (⟨3, 1, 1⟩ : Date).Valid ∧
    (∀ l ∈ [(⟨"A", 50, 0, 100, 1, 0, 0⟩ : Loan)],
      0 ≤ l.interestRate ∧ 0 ≤ l.monthlyPayment) ∧
    (PaymentDevice.pay_loans (fun ls d => first_loan_heuristic ls d)
        (PaymentDevice.init ⟨2, 1, 1⟩ [(⟨"A", 50, 0, 100, 1, 0, 0⟩ : Loan)] none)
        ⟨3, 1, 1⟩ =
      .ok (true,
        { originalLoans := [(⟨"A", 50, 0, 100, 1, 0, 0⟩ : Loan)]
          loans := []
          bestAmountPaid := none
          paymentStats :=
            { dateOfBirth := ⟨2, 1, 1⟩
              startDate := some ⟨3, 1, 1⟩
              finishDate := some ⟨3, 1, 2⟩
              amountPaid := 50
              monthsPaid := 0
              yearsPaid := 0
              finishAge := 1 }
          paymentPlan := [TraceEvent.loanFinished "A" 0, TraceEvent.blank]
          payments := [50] })) ∧
    ((true = true) ↔
      ({ originalLoans := [(⟨"A", 50, 0, 100, 1, 0, 0⟩ : Loan)]
         loans := []
         bestAmountPaid := none
         paymentStats :=
           { dateOfBirth := ⟨2, 1, 1⟩
             startDate := some ⟨3, 1, 1⟩
             finishDate := some ⟨3, 1, 2⟩
             amountPaid := 50
             monthsPaid := 0
             yearsPaid := 0
             finishAge := 1 }
         paymentPlan := [TraceEvent.loanFinished "A" 0, TraceEvent.blank]
         payments := [50] } : PaymentDevice).loans = []) :=
  ⟨by decide, by decide, by with_unfolding_all rfl,
   (((C2_pay_loans_success_semantics (fun ls d => first_loan_heuristic ls d)
        ⟨2, 1, 1⟩ [(⟨"A", 50, 0, 100, 1, 0, 0⟩ : Loan)] none ⟨3, 1, 1⟩
        (by decide) (by decide)).2 true _
        (by with_unfolding_all rfl)).1 (by decide)).symm.symm⟩

/-- C6: during a simulation, the cumulative amount paid never decreases as a
payment day is processed, and for every run that returns without raising the
final cumulative amount paid equals the sum of the logged per-event payment
amounts, each of which is nonnegative. -/
theorem C6_amount_paid_monotone (decider : Decider) (dob : Date)
    (loans : List Loan) (best : Option ℚ) (startDate : Date)
    (hv : startDate.Valid)
    (hgood : ∀ l ∈ loans, 0 ≤ l.interestRate ∧ 0 ≤ l.monthlyPayment) :
    (∀ (st : PaymentDevice) (d : Date), d.Valid → (∀ l ∈ st.loans, GoodLoan l) →
      st.paymentStats.amountPaid ≤
        (PaymentDevice.make_payments_on_date st d).1.paymentStats.amountPaid) ∧
    (∀ (b : Bool) (st' : PaymentDevice),
      PaymentDevice.pay_loans decider (PaymentDevice.init dob loans best) startDate =
        .ok (b, st') →
      st'.paymentStats.amountPaid = st'.payments.sum ∧
      (∀ p ∈ st'.payments, 0 ≤ p)) := by
  constructor
  · intro st d hdv hdG
    obtain ⟨_, _, _, hgd⟩ := make_payments_on_date_spec st d
    obtain ⟨_, ps, _, hpsn, hpsa⟩ := hgd hdv hdG
    rw [hpsa]
    have h0 : 0 ≤ ps.sum := List.sum_nonneg hpsn
    linarith
  · intro b st' h
    have horig : (PaymentDevice.init dob loans best).originalLoans = loans := rfl
    unfold PaymentDevice.pay_loans at h
    dsimp only at h
    rw [horig] at h
    by_cases hempty : (loans.filter (fun l => 0 < l.balance)).isEmpty
    · rw [if_pos hempty] at h
      injection h with hpair
      injection hpair with h1 h2
      rw [← h2]
      exact ⟨rfl, by intro p hp; cases hp⟩
    · rw [if_neg hempty] at h
      have hlen : (loans.filter (fun l => 0 < l.balance)).length <
          (loans.filter (fun l => 0 < l.balance)).length + 1 := Nat.lt_succ_self _
      have hGf : ∀ l ∈ loans.filter (fun l => 0 < l.balance), GoodLoan l := by
        intro l hl
        have hb' := List.of_mem_filter hl
        have hmem := List.mem_of_mem_filter hl
        exact ⟨of_decide_eq_true hb', (hgood l hmem).1, (hgood l hmem).2⟩
      obtain ⟨_, _, _, c4, c5, _⟩ :=
        payLoansAux_spec decider _ _ _ hlen hv hGf rfl
          (by intro p hp; cases hp) b st' h
      exact ⟨c4, c5⟩

/-- Witness for C6 at a concrete one-loan run: the final amount paid equals
the sum of the logged payments. -/
theorem C6_amount_paid_monotone_witness :
    (⟨3, 1, 1⟩ : Date).Valid ∧
    (∀ l ∈ [(⟨"A", 50, 0, 100, 1, 0, 0⟩ : Loan)],
      0 ≤ l.interestRate ∧ 0 ≤ l.monthlyPayment) ∧
    (PaymentDevice.pay_loans (fun ls d => first_loan_heuristic ls d)
        (PaymentDevice.init ⟨2, 1, 1⟩ [(⟨"A", 50, 0, 100, 1, 0, 0⟩ : Loan)] none)
        ⟨3, 1, 1⟩ =
      .ok (true,
        { originalLoans := [(⟨"A", 50, 0, 100, 1, 0, 0⟩ : Loan)]
          loans := []
          bestAmountPaid := none
          paymentStats :=
            { dateOfBirth := ⟨2, 1, 1⟩
              startDate := some ⟨3, 1, 1⟩
              finishDate := some ⟨3, 1, 2⟩
              amountPaid := 50
              monthsPaid := 0
              yearsPaid := 0
              finishAge := 1 }
          paymentPlan := [TraceEvent.loanFinished "A" 0, TraceEvent.blank]
          payments := [50] })) ∧
    (({ originalLoans := [(⟨"A", 50, 0, 100, 1, 0, 0⟩ : Loan)]
        loans := []
        bestAmountPaid := none
        paymentStats :=
          { dateOfBirth := ⟨2, 1, 1⟩
            startDate := some ⟨3, 1, 1⟩
            finishDate := some ⟨3, 1, 2⟩
            amountPaid := 50
            monthsPaid := 0
            yearsPaid := 0
            finishAge := 1 }
        paymentPlan := [TraceEvent.loanFinished "A" 0, TraceEvent.blank]
        payments := [50] } : PaymentDevice).paymentStats.amountPaid =
      ({ originalLoans := [(⟨"A", 50, 0, 100, 1, 0, 0⟩ : Loan)]
         loans := []
         bestAmountPaid := none
         paymentStats :=
           { dateOfBirth := ⟨2, 1, 1⟩
             startDate := some ⟨3, 1, 1⟩
             finishDate := some ⟨3, 1, 2⟩
             amountPaid := 50
             monthsPaid := 0
             yearsPaid := 0
             finishAge := 1 }
         paymentPlan := [TraceEvent.loanFinished "A" 0, TraceEvent.blank]
         payments := [50] } : PaymentDevice).payments.sum) :=
  ⟨by decide, by decide, by with_unfolding_all rfl,
   ((C6_amount_paid_monotone (fun ls d => first_loan_heuristic ls d)
        ⟨2, 1, 1⟩ [(⟨"A", 50, 0, 100, 1, 0, 0⟩ : Loan)] none ⟨3, 1, 1⟩
        (by decide) (by decide)).2 true _ (by with_unfolding_all rfl)).1⟩

/-- C7: no step of the simulation decreases any remaining loan's monthly
payment — daily payment processing keeps it unchanged and per-dollar
reallocation after a payoff only raises it, both for a single day, for the
whole day-stepping loop, and for `_handle_paid_loans`. -/
theorem C7_monthly_payment_never_decreases :
    (∀ (st : PaymentDevice) (d : Date),
      ∀ l' ∈ (PaymentDevice.make_payments_on_date st d).1.loans, ∃ l ∈ st.loans,
        l.name = l'.name ∧ l.monthlyPayment ≤ l'.monthlyPayment) ∧
    (∀ (st : PaymentDevice) (d : Date),
      ∀ l' ∈ (PaymentDevice.make_payments_until_loan_paid st d).1.loans, ∃ l ∈ st.loans,
        l.name = l'.name ∧ l.monthlyPayment ≤ l'.monthlyPayment) ∧
    (∀ (decider : Decider) (st : PaymentDevice) (paidLoans : List Loan)
      (currentDate : Date) (st' : PaymentDevice) (b : Bool),
      PaymentDevice.handle_paid_loans decider st paidLoans currentDate = .ok (st', b) →
      ∀ l' ∈ st'.loans, ∃ l ∈ st.loans,
        l.name = l'.name ∧ l.monthlyPayment ≤ l'.monthlyPayment) := by
  refine ⟨?_, ?_, ?_⟩
  · intro st d
    exact (make_payments_on_date_spec st d).2.2.1
  · intro st d
    exact (make_payments_until_spec st d).2.2.1
  · intro decider st paidLoans currentDate st' b h
    obtain ⟨⟨_, hmem, _, _, _, _⟩, _⟩ := handle_paid_loans_spec decider st paidLoans currentDate st' b h
    intro l' hl'
    obtain ⟨l, hl, hn, _, _, hm⟩ := hmem l' hl'
    exact ⟨l, hl, hn, hm⟩

/-- Witness for C7 at a concrete `_handle_paid_loans` success: the remaining
loan's monthly payment grew from 5 to 8. -/
theorem C7_monthly_payment_never_decreases_witness :
    (PaymentDevice.handle_paid_loans (fun ls d => first_loan_heuristic ls d)
      { PaymentDevice.init ⟨2, 1, 1⟩ [(⟨"A", 100, 0, 5, 1, 0, 0⟩ : Loan)] none with
        loans := [(⟨"A", 100, 0, 5, 1, 0, 0⟩ : Loan)]
        paymentStats := { PaymentStats.init ⟨2, 1, 1⟩ with startDate := some ⟨3, 1, 1⟩ } }
      [(⟨"B", 0, 0, 3, 15, 0, 0⟩ : Loan)] ⟨3, 2, 1⟩ =
      .ok ({ originalLoans := [(⟨"A", 100, 0, 5, 1, 0, 0⟩ : Loan)]
             loans := [(⟨"A", 100, 0, 8, 1, 0, 0⟩ : Loan)]
             bestAmountPaid := none
             paymentStats :=
               { dateOfBirth := ⟨2, 1, 1⟩
                 startDate := some ⟨3, 1, 1⟩
                 finishDate := none
                 amountPaid := 0
                 monthsPaid := 0
                 yearsPaid := 0
                 finishAge := 0 }
             paymentPlan := [TraceEvent.loanFinished "B" 1, TraceEvent.blank]
             payments := [] }, true)) ∧
    (∀ l' ∈ [(⟨"A", 100, 0, 8, 1, 0, 0⟩ : Loan)],
      ∃ l ∈ [(⟨"A", 100, 0, 5, 1, 0, 0⟩ : Loan)],
        l.name = l'.name ∧ l.monthlyPayment ≤ l'.monthlyPayment) :=
  ⟨by with_unfolding_all rfl,
   C7_monthly_payment_never_decreases.2.2 (fun ls d => first_loan_heuristic ls d)
     { PaymentDevice.init ⟨2, 1, 1⟩ [(⟨"A", 100, 0, 5, 1, 0, 0⟩ : Loan)] none with
       loans := [(⟨"A", 100, 0, 5, 1, 0, 0⟩ : Loan)]
       paymentStats := { PaymentStats.init ⟨2, 1, 1⟩ with startDate := some ⟨3, 1, 1⟩ } }
     [(⟨"B", 0, 0, 3, 15, 0, 0⟩ : Loan)] ⟨3, 2, 1⟩
     { originalLoans := [(⟨"A", 100, 0, 5, 1, 0, 0⟩ : Loan)]
       loans := [(⟨"A", 100, 0, 8, 1, 0, 0⟩ : Loan)]
       bestAmountPaid := none
       paymentStats :=
         { dateOfBirth := ⟨2, 1, 1⟩
           startDate := some ⟨3, 1, 1⟩
           finishDate := none
           amountPaid := 0
           monthsPaid := 0
           yearsPaid := 0
           finishAge := 0 }
       paymentPlan := [TraceEvent.loanFinished "B" 1, TraceEvent.blank]
       payments := [] } true
     (by with_unfolding_all rfl)⟩
